import Mathlib

/-!
Verification of the EduASM assembler and execution engine
(`assemble`, `resolveOperand`, `setFlags`, `step`, `run`).

The definitions below are a shallow embedding of the TypeScript source.
JavaScript numbers holding integer values are modelled as `Int`; the
implicit `ToInt32` / `ToUint32` conversions performed by JavaScript's
bitwise operators and by `Int32Array` stores are made explicit.
-/

namespace EduASM

/-- `ToUint32` conversion of an integral JavaScript number. -/
def toUint32 (x : Int) : Int := x % 4294967296

/-- `ToInt32` conversion of an integral JavaScript number. -/
def toInt32 (x : Int) : Int := (x + 2147483648) % 4294967296 - 2147483648

/-- The shift count used by JavaScript shift operators: `ToUint32(k) mod 32`. -/
def shiftCount (k : Int) : Nat := (toUint32 k).toNat % 32

/-- JavaScript `x << k`. -/
def jsShl (x k : Int) : Int := toInt32 (toInt32 x * 2 ^ shiftCount k)

/-- JavaScript `x >>> k` (logical right shift). -/
def jsShrU (x k : Int) : Int := toUint32 x / 2 ^ shiftCount k

/-- JavaScript `x >> k` (arithmetic right shift). -/
def jsShrS (x k : Int) : Int := toInt32 x / 2 ^ shiftCount k

/-- JavaScript `x & y`. -/
def jsAnd (x y : Int) : Int :=
  toInt32 (Int.ofNat (Nat.land (toUint32 x).toNat (toUint32 y).toNat))

/-- JavaScript `x | y`. -/
def jsOr (x y : Int) : Int :=
  toInt32 (Int.ofNat (Nat.lor (toUint32 x).toNat (toUint32 y).toNat))

/-- JavaScript `x ^ y`. -/
def jsXor (x y : Int) : Int :=
  toInt32 (Int.ofNat (Nat.xor (toUint32 x).toNat (toUint32 y).toNat))

/-- JavaScript `~x`. -/
def jsNot (x : Int) : Int := -(toInt32 x) - 1

/-- `Math.imul(a, b)`: 32-bit signed multiplication. -/
def jsImul (a b : Int) : Int := toInt32 (toInt32 a * toInt32 b)

/-- `Math.trunc(a / b)` for integral operands: division truncated toward zero. -/
def jsTruncDiv (a b : Int) : Int := Int.tdiv a b

/-- `RAM_SIZE = 65536`: 64KB memory. -/
def RAM_SIZE : Int := 65536

/-- `STACK_START = RAM_SIZE - 4`. -/
def STACK_START : Int := RAM_SIZE - 4

/-- The 64KB byte-addressable memory backing the `DataView` `ram`.
Each cell holds one byte value. -/
def Mem : Type := Int → Nat

/-- Read one byte. -/
def Mem.getByte (m : Mem) (a : Int) : Nat := m a % 256

/-- Write one byte. -/
def Mem.setByte (m : Mem) (a : Int) (b : Nat) : Mem :=
  fun x => if x = a then b % 256 else m x

/-- `DataView.setInt32(addr, v, true)`: store 4 bytes little-endian. -/
def Mem.setInt32 (m : Mem) (addr : Int) (v : Int) : Mem :=
  let u := (toUint32 v).toNat
  ((((m.setByte addr (u % 256)).setByte (addr + 1) (u / 256 % 256)).setByte
      (addr + 2) (u / 65536 % 256)).setByte (addr + 3) (u / 16777216 % 256))

/-- `DataView.getInt32(addr, true)`: read 4 bytes little-endian, signed. -/
def Mem.getInt32 (m : Mem) (addr : Int) : Int :=
  let u : Nat := m.getByte addr + 256 * m.getByte (addr + 1) +
      65536 * m.getByte (addr + 2) + 16777216 * m.getByte (addr + 3)
  if u < 2147483648 then (u : Int) else (u : Int) - 4294967296

/-- All-zero memory, as the host allocates it. -/
def zeroMem : Mem := fun _ => 0

/-- The `Flags` register: `{ZF, NF, CF, OF}`. -/
structure Flags where
  ZF : Bool
  NF : Bool
  CF : Bool
  OF : Bool
deriving DecidableEq, Repr

/-- The `CPU` state.  `R` models the `Int32Array(8)` of general registers:
reads outside `[0,8)` are junk; writes go through `CPU.writeR`, which
performs the `Int32Array` `ToInt32` truncation and ignores out-of-range
indices.  `SP`, `BP`, `IP` are plain JavaScript numbers. -/
structure CPU where
  R : Int → Int
  SP : Int
  BP : Int
  IP : Int
  F : Flags
  halted : Bool

/-- `createCPU()`. -/
def createCPU : CPU :=
  { R := fun _ => 0
    SP := STACK_START
    BP := STACK_START
    IP := 0
    F := { ZF := false, NF := false, CF := false, OF := false }
    halted := false }

/-- Store into the register file (`cpu.R[i] = v`): `Int32Array` semantics. -/
def CPU.writeR (cpu : CPU) (i : Int) (v : Int) : CPU :=
  if 0 ≤ i ∧ i < 8 then
    { cpu with R := fun j => if j = i then toInt32 v else cpu.R j }
  else cpu

/-- The repeated source idiom
`regIndex === -1 ? cpu.SP : regIndex === -2 ? cpu.BP : cpu.R[regIndex]`. -/
def getBase (cpu : CPU) (i : Int) : Int :=
  if i = -1 then cpu.SP else if i = -2 then cpu.BP else cpu.R i

/-- The repeated source idiom
`if (regIndex === -1) cpu.SP = v; else if (regIndex === -2) cpu.BP = v;
else cpu.R[regIndex] = v;`. -/
def setBase (cpu : CPU) (i : Int) (v : Int) : CPU :=
  if i = -1 then { cpu with SP := v }
  else if i = -2 then { cpu with BP := v }
  else cpu.writeR i v

/-- The `Operand.type` union `'reg' | 'imm' | 'mem' | 'label'`. -/
inductive OpType where
  | reg
  | imm
  | mem
  | label
deriving DecidableEq, Repr

/-- The `value` field of an `Operand`: `number | string`. -/
inductive OperandValue where
  | num (n : Int)
  | str (s : String)
deriving DecidableEq, Repr

/-- The TypeScript cast `operand.value as number`. -/
def OperandValue.asNumber : OperandValue → Int
  | .num n => n
  | .str _ => 0

/-- The TypeScript cast `operand.value as string`. -/
def OperandValue.asString : OperandValue → String
  | .num _ => ""
  | .str s => s

/-- The TypeScript probe `typeof operand.value === 'string'`. -/
def OperandValue.isStr : OperandValue → Bool
  | .num _ => false
  | .str _ => true

/-- An assembled operand. -/
structure Operand where
  type : OpType
  value : OperandValue
  offset : Option Int
  indirect : Option Bool
deriving DecidableEq, Repr

/-- A placeholder matching a JavaScript out-of-bounds `operands[i]` access,
unreachable for arity-validated programs. -/
def defaultOperand : Operand := ⟨.imm, .num 0, none, none⟩

/-- An assembled instruction. -/
structure Instruction where
  op : String
  operands : List Operand
  line : Nat
  source : String
deriving DecidableEq, Repr

/-- Label table: `Record<string, number>` built by insertion of fresh keys. -/
def Labels : Type := List (String × Int)

/-- `labels[name]` lookup. -/
def Labels.find (labels : Labels) (name : String) : Option Int :=
  List.lookup name labels

/-- An assembled `Program`. -/
structure Program where
  lines : List String
  ast : List Instruction
  labels : Labels
  dataSection : Nat → Nat
  textStart : Int

/-- `AsmError(line, message, hint?)`. -/
structure AsmErr where
  line : Nat
  message : String
  hint : Option String
deriving DecidableEq, Repr

/-- `resolveOperand(operand, cpu, ram, labels)`.  Thrown `Error`s become
`Except.error` carrying the message. -/
def resolveOperand (operand : Operand) (cpu : CPU) (ram : Mem) (labels : Labels) :
    Except String Int :=
  match operand.type with
  | .imm => .ok operand.value.asNumber
  | .reg =>
    let regIndex := operand.value.asNumber
    if regIndex = -1 then .ok cpu.SP
    else if regIndex = -2 then .ok cpu.BP
    else if regIndex < 0 ∨ 8 ≤ regIndex then
      .error s!"Invalid register index: {regIndex}"
    else .ok (cpu.R regIndex)
  | .mem => do
    let addr ← (match operand.value with
      | .str s =>
        match labels.find s with
        | none => Except.error s!"Undefined label: {s}"
        | some a => Except.ok a
      | .num regIndex =>
        if operand.indirect = some true then
          let baseAddr := getBase cpu regIndex
          Except.ok (baseAddr + operand.offset.getD 0)
        else
          Except.ok regIndex)
    if addr < 0 ∨ RAM_SIZE - 3 ≤ addr then
      .error s!"Memory access out of bounds: {addr} (valid range: 0-{RAM_SIZE - 4})"
    else
      .ok (ram.getInt32 addr)
  | .label =>
    match labels.find operand.value.asString with
    | none => .error s!"Undefined label: {operand.value.asString}"
    | some a => .ok a

/-- The `operation` parameter of `setFlags`. -/
inductive FlagOp where
  | add
  | sub
  | mul
  | div
  | cmp
  | logic
deriving DecidableEq, Repr

/-- `setFlags(cpu, result, a?, b?, operation)`. -/
def setFlags (cpu : CPU) (result : Int) (a b : Option Int) (operation : FlagOp) :
    CPU :=
  let zf := decide (result = 0)
  let nf := decide (result < 0)
  match operation, a, b with
  | .add, some a, some b =>
    let cf := decide (4294967295 < toUint32 a + toUint32 b)
    let signA := decide (a < 0)
    let signB := decide (b < 0)
    let signResult := decide (result < 0)
    let ofl := (signA = signB) && (signA ≠ signResult)
    { cpu with F := { ZF := zf, NF := nf, CF := cf, OF := ofl } }
  | .sub, some a, some b =>
    let cf := decide (toUint32 a < toUint32 b)
    let signA := decide (a < 0)
    let signB := decide (b < 0)
    let signResult := decide (result < 0)
    let ofl := (signA ≠ signB) && (signB = signResult)
    { cpu with F := { ZF := zf, NF := nf, CF := cf, OF := ofl } }
  | .mul, some a, some b =>
    let product := a * b
    let cf := decide (34359738367 < product ∨ product < -34359738368)
    { cpu with F := { ZF := zf, NF := nf, CF := cf, OF := cf } }
  | _, _, _ =>
    { cpu with F := { ZF := zf, NF := nf, CF := false, OF := false } }

/-- The result of one `step` call: the (possibly partially mutated) CPU and
memory, and the `AsmError` thrown out of `step`, when any. -/
structure StepOut where
  cpu : CPU
  ram : Mem
  err : Option AsmErr

/-- `cpu.SP -= 4; if (cpu.SP < 0) throw 'Stack overflow';
ram.setInt32(cpu.SP, value, true);` — the body of the `PUSH` case after
operand resolution. -/
def pushValue (cpu : CPU) (ram : Mem) (value : Int) : CPU × Mem × Option String :=
  let cpu := { cpu with SP := cpu.SP - 4 }
  if cpu.SP < 0 then (cpu, ram, some "Stack overflow")
  else (cpu, ram.setInt32 cpu.SP value, none)

/-- `if (cpu.SP >= RAM_SIZE - 4) throw 'Stack underflow';
const value = ram.getInt32(cpu.SP, true); cpu.SP += 4;` — the read half of
the `POP` case.  The fourth component is the popped value. -/
def popValue (cpu : CPU) (ram : Mem) : CPU × Mem × Option String × Int :=
  if RAM_SIZE - 4 ≤ cpu.SP then (cpu, ram, some "Stack underflow", 0)
  else
    let value := ram.getInt32 cpu.SP
    ({ cpu with SP := cpu.SP + 4 }, ram, none, value)

/-- Build the `StepOut` for a throw caught by `step`'s `catch` block:
`throw new AsmError(instruction.line, message)`. -/
def throwOut (cpu : CPU) (ram : Mem) (line : Nat) (message : String) : StepOut :=
  ⟨cpu, ram, some ⟨line, message, none⟩⟩

/-- The fall-through `cpu.IP++` after a non-jumping instruction. -/
def advanceOut (cpu : CPU) (ram : Mem) : StepOut :=
  ⟨{ cpu with IP := cpu.IP + 1 }, ram, none⟩

/-- The body of every conditional-jump case: resolve the target and set the
instruction pointer, skipping the default increment. -/
def takeJump (cpu : CPU) (ram : Mem) (line : Nat) (operands : List Operand)
    (labels : Labels) : StepOut :=
  match resolveOperand (operands.getD 0 defaultOperand) cpu ram labels with
  | .error e => throwOut cpu ram line e
  | .ok target => ⟨{ cpu with IP := target }, ram, none⟩

/-- `step(cpu, program, ram)` (invoked without an `onSys` hook).
Executes exactly one instruction; a thrown error is reported in `StepOut.err`
with the state mutations performed up to the throw. -/
def step (cpu : CPU) (program : Program) (ram : Mem) : StepOut :=
  if cpu.halted then ⟨cpu, ram, none⟩
  else if cpu.IP < 0 ∨ (program.ast.length : Int) ≤ cpu.IP then
    ⟨{ cpu with halted := true }, ram, none⟩
  else
    match program.ast.get? cpu.IP.toNat with
    | none => ⟨{ cpu with halted := true }, ram, none⟩
    | some instruction =>
      let op := instruction.op
      let operands := instruction.operands
      let line := instruction.line
      let labels := program.labels
      match op with
      | "NOP" => advanceOut cpu ram
      | "HALT" => ⟨{ cpu with halted := true }, ram, none⟩
      | "MOV" =>
        let src? : Except String Int :=
          if (operands.getD 1 defaultOperand).type = .label then
            .ok ((labels.find (operands.getD 1 defaultOperand).value.asString).getD 0)
          else resolveOperand (operands.getD 1 defaultOperand) cpu ram labels
        match src? with
        | .error e => throwOut cpu ram line e
        | .ok src =>
          if (operands.getD 0 defaultOperand).type = .reg then
            advanceOut (setBase cpu (operands.getD 0 defaultOperand).value.asNumber src) ram
          else throwOut cpu ram line "MOV destination must be register"
      | "LOAD" =>
        match resolveOperand (operands.getD 1 defaultOperand) cpu ram labels with
        | .error e => throwOut cpu ram line e
        | .ok value =>
          if (operands.getD 0 defaultOperand).type = .reg then
            advanceOut (setBase cpu (operands.getD 0 defaultOperand).value.asNumber value) ram
          else throwOut cpu ram line "LOAD destination must be register"
      | "STORE" =>
        match resolveOperand (operands.getD 1 defaultOperand) cpu ram labels with
        | .error e => throwOut cpu ram line e
        | .ok value =>
          let dst := operands.getD 0 defaultOperand
          if dst.type ≠ .mem then
            throwOut cpu ram line "STORE destination must be memory reference"
          else
            let addr : Int :=
              match dst.value with
              | .str s => (labels.find s).getD 0
              | .num regIndex =>
                if dst.indirect = some true then
                  getBase cpu regIndex + dst.offset.getD 0
                else regIndex
            if addr < 0 ∨ RAM_SIZE - 3 ≤ addr then
              throwOut cpu ram line s!"Memory store out of bounds: {addr}"
            else advanceOut cpu (ram.setInt32 addr value)
      | "LEA" =>
        let dst := operands.getD 0 defaultOperand
        if dst.type ≠ .reg then throwOut cpu ram line "LEA destination must be register"
        else
          let src := operands.getD 1 defaultOperand
          let addr : Int :=
            if src.type = .label then (labels.find src.value.asString).getD 0
            else if src.type = .mem ∧ src.value.isStr = true then
              (labels.find src.value.asString).getD 0
            else src.value.asNumber
          advanceOut (setBase cpu dst.value.asNumber addr) ram
      | "ADD" =>
        let regIndex := (operands.getD 0 defaultOperand).value.asNumber
        let a := getBase cpu regIndex
        match resolveOperand (operands.getD 1 defaultOperand) cpu ram labels with
        | .error e => throwOut cpu ram line e
        | .ok b =>
          let result := a + b
          advanceOut (setFlags (setBase cpu regIndex result) result (some a) (some b) .add) ram
      | "SUB" =>
        let regIndex := (operands.getD 0 defaultOperand).value.asNumber
        let a := getBase cpu regIndex
        match resolveOperand (operands.getD 1 defaultOperand) cpu ram labels with
        | .error e => throwOut cpu ram line e
        | .ok b =>
          let result := a - b
          advanceOut (setFlags (setBase cpu regIndex result) result (some a) (some b) .sub) ram
      | "MUL" =>
        let regIndex := (operands.getD 0 defaultOperand).value.asNumber
        let a := getBase cpu regIndex
        match resolveOperand (operands.getD 1 defaultOperand) cpu ram labels with
        | .error e => throwOut cpu ram line e
        | .ok b =>
          let result := jsImul a b
          advanceOut (setFlags (setBase cpu regIndex result) result (some a) (some b) .mul) ram
      | "DIV" =>
        match resolveOperand (operands.getD 1 defaultOperand) cpu ram labels with
        | .error e => throwOut cpu ram line e
        | .ok b =>
          if b = 0 then
            throwOut { cpu with F := { cpu.F with CF := true } } ram line "Division by zero"
          else
            let regIndex := (operands.getD 0 defaultOperand).value.asNumber
            let a := getBase cpu regIndex
            let result := jsTruncDiv a b
            advanceOut (setFlags (setBase cpu regIndex result) result (some a) (some b) .div) ram
      | "INC" =>
        let regIndex := (operands.getD 0 defaultOperand).value.asNumber
        let current := getBase cpu regIndex
        let result := current + 1
        advanceOut (setFlags (setBase cpu regIndex result) result (some current) (some 1) .add) ram
      | "DEC" =>
        let regIndex := (operands.getD 0 defaultOperand).value.asNumber
        let current := getBase cpu regIndex
        let result := current - 1
        advanceOut (setFlags (setBase cpu regIndex result) result (some current) (some 1) .sub) ram
      | "AND" =>
        let regIndex := (operands.getD 0 defaultOperand).value.asNumber
        let a := getBase cpu regIndex
        match resolveOperand (operands.getD 1 defaultOperand) cpu ram labels with
        | .error e => throwOut cpu ram line e
        | .ok b =>
          let result := jsAnd a b
          advanceOut (setFlags (setBase cpu regIndex result) result none none .logic) ram
      | "OR" =>
        let regIndex := (operands.getD 0 defaultOperand).value.asNumber
        let a := getBase cpu regIndex
        match resolveOperand (operands.getD 1 defaultOperand) cpu ram labels with
        | .error e => throwOut cpu ram line e
        | .ok b =>
          let result := jsOr a b
          advanceOut (setFlags (setBase cpu regIndex result) result none none .logic) ram
      | "XOR" =>
        let regIndex := (operands.getD 0 defaultOperand).value.asNumber
        let a := getBase cpu regIndex
        match resolveOperand (operands.getD 1 defaultOperand) cpu ram labels with
        | .error e => throwOut cpu ram line e
        | .ok b =>
          let result := jsXor a b
          advanceOut (setFlags (setBase cpu regIndex result) result none none .logic) ram
      | "NOT" =>
        let regIndex := (operands.getD 0 defaultOperand).value.asNumber
        let current := getBase cpu regIndex
        let result := jsNot current
        advanceOut (setFlags (setBase cpu regIndex result) result none none .logic) ram
      | "SHL" =>
        let regIndex := (operands.getD 0 defaultOperand).value.asNumber
        let current := getBase cpu regIndex
        match resolveOperand (operands.getD 1 defaultOperand) cpu ram labels with
        | .error e => throwOut cpu ram line e
        | .ok shift =>
          if shift < 0 ∨ 31 < shift then
            throwOut cpu ram line s!"Invalid shift amount: {shift} (must be 0-31)"
          else
            let result := jsShl current shift
            let cpu := setBase cpu regIndex result
            let cpu := { cpu with F := { cpu.F with
              CF := decide (0 < shift) && decide (jsAnd (jsShrU current (32 - shift)) 1 = 1) } }
            advanceOut (setFlags cpu result none none .logic) ram
      | "SHR" =>
        let regIndex := (operands.getD 0 defaultOperand).value.asNumber
        let current := getBase cpu regIndex
        match resolveOperand (operands.getD 1 defaultOperand) cpu ram labels with
        | .error e => throwOut cpu ram line e
        | .ok shift =>
          if shift < 0 ∨ 31 < shift then
            throwOut cpu ram line s!"Invalid shift amount: {shift} (must be 0-31)"
          else
            let result := jsShrU current shift
            let cpu := setBase cpu regIndex result
            let cpu := { cpu with F := { cpu.F with
              CF := decide (0 < shift) && decide (jsAnd (jsShrU current (shift - 1)) 1 = 1) } }
            advanceOut (setFlags cpu result none none .logic) ram
      | "CMP" =>
        match resolveOperand (operands.getD 0 defaultOperand) cpu ram labels with
        | .error e => throwOut cpu ram line e
        | .ok a =>
          match resolveOperand (operands.getD 1 defaultOperand) cpu ram labels with
          | .error e => throwOut cpu ram line e
          | .ok b =>
            let result := a - b
            advanceOut (setFlags cpu result (some a) (some b) .cmp) ram
      | "JMP" =>
        match resolveOperand (operands.getD 0 defaultOperand) cpu ram labels with
        | .error e => throwOut cpu ram line e
        | .ok target =>
          if target < 0 ∨ (program.ast.length : Int) ≤ target then
            throwOut cpu ram line s!"Jump target out of bounds: {target}"
          else ⟨{ cpu with IP := target }, ram, none⟩
      | "JZ" =>
        if cpu.F.ZF then takeJump cpu ram line operands labels else advanceOut cpu ram
      | "JNZ" =>
        if !cpu.F.ZF then takeJump cpu ram line operands labels else advanceOut cpu ram
      | "JC" =>
        if cpu.F.CF then takeJump cpu ram line operands labels else advanceOut cpu ram
      | "JNC" =>
        if !cpu.F.CF then takeJump cpu ram line operands labels else advanceOut cpu ram
      | "JN" =>
        if cpu.F.NF then takeJump cpu ram line operands labels else advanceOut cpu ram
      | "JNN" =>
        if !cpu.F.NF then takeJump cpu ram line operands labels else advanceOut cpu ram
      | "JG" =>
        if !cpu.F.ZF && cpu.F.NF = cpu.F.OF then takeJump cpu ram line operands labels
        else advanceOut cpu ram
      | "JGE" =>
        if cpu.F.NF = cpu.F.OF then takeJump cpu ram line operands labels
        else advanceOut cpu ram
      | "JL" =>
        if cpu.F.NF ≠ cpu.F.OF then takeJump cpu ram line operands labels
        else advanceOut cpu ram
      | "JLE" =>
        if cpu.F.ZF || cpu.F.NF ≠ cpu.F.OF then takeJump cpu ram line operands labels
        else advanceOut cpu ram
      | "PUSH" =>
        match resolveOperand (operands.getD 0 defaultOperand) cpu ram labels with
        | .error e => throwOut cpu ram line e
        | .ok value =>
          match pushValue cpu ram value with
          | (cpu, ram, some e) => throwOut cpu ram line e
          | (cpu, ram, none) => advanceOut cpu ram
      | "POP" =>
        match popValue cpu ram with
        | (cpu, ram, some e, _) => throwOut cpu ram line e
        | (cpu, ram, none, value) =>
          if (operands.getD 0 defaultOperand).type = .reg then
            advanceOut (setBase cpu (operands.getD 0 defaultOperand).value.asNumber value) ram
          else throwOut cpu ram line "POP destination must be register"
      | "CALL" =>
        match resolveOperand (operands.getD 0 defaultOperand) cpu ram labels with
        | .error e => throwOut cpu ram line e
        | .ok target =>
          if target < 0 ∨ (program.ast.length : Int) ≤ target then
            throwOut cpu ram line s!"Call target out of bounds: {target}"
          else
            let cpu' := { cpu with SP := cpu.SP - 4 }
            if cpu'.SP < 0 then throwOut cpu' ram line "Stack overflow on CALL"
            else
              let ram := ram.setInt32 cpu'.SP (cpu'.IP + 1)
              ⟨{ cpu' with IP := target }, ram, none⟩
      | "RET" =>
        match popValue cpu ram with
        | (cpu, ram, some _, _) => throwOut cpu ram line "Stack underflow on RET"
        | (cpu, ram, none, returnAddr) =>
          if returnAddr < 0 ∨ (program.ast.length : Int) ≤ returnAddr then
            throwOut cpu ram line s!"Invalid return address: {returnAddr}"
          else ⟨{ cpu with IP := returnAddr }, ram, none⟩
      | "SYS" =>
        match resolveOperand (operands.getD 0 defaultOperand) cpu ram labels with
        | .error e => throwOut cpu ram line e
        | .ok syscall =>
          if syscall = 1 then advanceOut cpu ram
          else if syscall = 2 then advanceOut cpu ram
          else if syscall = 3 then advanceOut { cpu with halted := true } ram
          else throwOut cpu ram line s!"Unknown syscall: {syscall}"
      | _ => throwOut cpu ram line s!"Unimplemented instruction: {op}"

/-- The record returned by `run`. -/
structure RunResult where
  steps : Nat
  halted : Bool
  hitBreakpoint : Bool
deriving DecidableEq, Repr

/-- The `while (!cpu.halted && steps < maxSteps)` loop of `run`;
`fuel` is `maxSteps - steps`. -/
def runAux (program : Program) (breakpoints : List Int) :
    Nat → CPU → Mem → Nat → CPU × Mem × Except AsmErr (Nat × Bool)
  | 0, cpu, ram, steps => (cpu, ram, .ok (steps, false))
  | fuel + 1, cpu, ram, steps =>
    if cpu.halted then (cpu, ram, .ok (steps, false))
    else if breakpoints.contains cpu.IP then (cpu, ram, .ok (steps, true))
    else
      match step cpu program ram with
      | ⟨cpu, ram, some e⟩ => (cpu, ram, .error e)
      | ⟨cpu, ram, none⟩ => runAux program breakpoints fuel cpu ram (steps + 1)

/-- `run(cpu, program, ram, {maxSteps, breakpoints})`.  A `RuntimeError`
thrown by `step` propagates out of `run` unmodified. -/
def run (cpu : CPU) (program : Program) (ram : Mem) (maxSteps : Nat)
    (breakpoints : List Int) : CPU × Mem × Except AsmErr RunResult :=
  match runAux program breakpoints maxSteps cpu ram 0 with
  | (cpu, ram, .ok (steps, hitBreakpoint)) =>
    (cpu, ram, .ok ⟨steps, cpu.halted, hitBreakpoint⟩)
  | (cpu, ram, .error e) => (cpu, ram, .error e)

/-! ### The assembler

String manipulation is implemented over `List Char` by structural recursion
(mirroring the JavaScript string methods the source uses), so that every
definition evaluates inside the kernel. -/

/-- JavaScript `s.split(sep)` for a one-character separator. -/
def listSplitChar (sep : Char) : List Char → List (List Char)
  | [] => [[]]
  | c :: rest =>
    let r := listSplitChar sep rest
    if c = sep then [] :: r else (c :: r.headD []) :: r.tail

/-- `s.split(sep)` wrapped back into strings. -/
def jsSplitChar (sep : Char) (s : String) : List String :=
  (listSplitChar sep s.data).map String.mk

/-- JavaScript `s.trim()`. -/
def jsTrim (s : String) : String :=
  String.mk (((s.data.dropWhile (·.isWhitespace)).reverse.dropWhile
    (·.isWhitespace)).reverse)

/-- JavaScript `s.startsWith(p)`. -/
def strStartsWith (s p : String) : Bool := p.data.isPrefixOf s.data

/-- JavaScript `s.endsWith(p)`. -/
def strEndsWith (s p : String) : Bool := p.data.reverse.isPrefixOf s.data.reverse

/-- JavaScript `s.toUpperCase()` (ASCII). -/
def strToUpper (s : String) : String := String.mk (s.data.map Char.toUpper)

/-- JavaScript `s.slice(n)` from a character index. -/
def strDrop (s : String) (n : Nat) : String := String.mk (s.data.drop n)

/-- Drop the last `n` characters (`s.slice(0, -n)`). -/
def strDropRight (s : String) (n : Nat) : String :=
  String.mk (s.data.take (s.data.length - n))

/-- `parts.join(sep)`. -/
def strJoin (sep : String) : List String → String
  | [] => ""
  | [x] => x
  | x :: y :: rest => x ++ sep ++ strJoin sep (y :: rest)

/-- Split on maximal whitespace runs:
JavaScript `trimmed.split(/\s+/)` for already-trimmed input. -/
def splitWs (s : String) : List String :=
  ((listSplitChar ' ' (s.data.map (fun c => if c.isWhitespace then ' ' else c))).filter
    (· ≠ [])).map String.mk

/-- `parts.slice(k).join(' ')`. -/
def joinSpace (parts : List String) : String := strJoin " " parts

/-- `trimmed.indexOf(':')` combined with the two `slice`s around it:
`none` when the string has no colon, otherwise the text before the first
colon and the text after it. -/
def beforeAfterColon (s : String) : Option (String × String) :=
  match s.data.span (· ≠ ':') with
  | (before, _ :: after) => some (String.mk before, String.mk after)
  | (_, []) => none

/-- Decimal digit accumulation used by `parseInt(s, 10)`. -/
def digitsToNat (ds : List Char) : Nat :=
  ds.foldl (fun a c => a * 10 + (c.toNat - 48)) 0

/-- JavaScript `parseInt(s, 10)`: leading whitespace, optional sign, then the
longest digit prefix; `none` models `NaN`. -/
def jsParseInt (s : String) : Option Int :=
  let cs := s.data.dropWhile (·.isWhitespace)
  let signAndRest : Int × List Char :=
    match cs with
    | '-' :: t => (-1, t)
    | '+' :: t => (1, t)
    | _ => (1, cs)
  let digits := signAndRest.2.takeWhile (·.isDigit)
  if digits = [] then none else some (signAndRest.1 * digitsToNat digits)

/-- One character of the label grammar `[a-zA-Z0-9_]`. -/
def isLabelChar (c : Char) : Bool := c.isAlpha || c.isDigit || c = '_'

/-- The regex test `/^[a-zA-Z_][a-zA-Z0-9_]*$/.test(s)`. -/
def isValidLabelName (s : String) : Bool :=
  match s.data with
  | [] => false
  | c :: rest => (c.isAlpha || c = '_') && rest.all isLabelChar

/-- The `REGISTERS` record: name to index. -/
def registerIndex? (s : String) : Option Int :=
  if s = "R0" then some 0
  else if s = "R1" then some 1
  else if s = "R2" then some 2
  else if s = "R3" then some 3
  else if s = "R4" then some 4
  else if s = "R5" then some 5
  else if s = "R6" then some 6
  else if s = "R7" then some 7
  else if s = "SP" then some (-1)
  else if s = "BP" then some (-2)
  else none

/-- The alternation `(R[0-7]|SP|BP)` of the offset regex, case-insensitive,
returning the capture already uppercased plus the rest of the input. -/
def regAltParse (cs : List Char) : Option (String × List Char) :=
  match cs with
  | c1 :: c2 :: rest =>
    if c1.toUpper = 'R' ∧ '0' ≤ c2 ∧ c2 ≤ '7' then some (String.mk ['R', c2], rest)
    else if c1.toUpper = 'S' ∧ c2.toUpper = 'P' then some ("SP", rest)
    else if c1.toUpper = 'B' ∧ c2.toUpper = 'P' then some ("BP", rest)
    else none
  | _ => none

/-- The full regex match `/^(R[0-7]|SP|BP)\s*([+-])\s*(\d+)$/i` on the text
inside brackets: register capture (uppercased), sign, digits. -/
def matchRegOffset (inner : String) : Option (String × Char × Nat) := do
  let (reg, rest) ← regAltParse inner.data
  let rest := rest.dropWhile (·.isWhitespace)
  match rest with
  | s :: rest2 =>
    if s = '+' ∨ s = '-' then
      let rest3 := rest2.dropWhile (·.isWhitespace)
      let digits := rest3.takeWhile (·.isDigit)
      let tail := rest3.dropWhile (·.isDigit)
      if digits ≠ [] ∧ tail = [] then some (reg, s, digitsToNat digits)
      else none
    else none
  | [] => none

/-- `parseOperand(token, labels, lineNum)` (the `labels` parameter is unused
by the source function). -/
def parseOperand (token : String) (lineNum : Nat) : Except AsmErr Operand :=
  let token := jsTrim (if strEndsWith token "," then strDropRight token 1 else token)
  if token = "" then
    .error ⟨lineNum, "Empty operand", some "Operands cannot be empty"⟩
  else if strStartsWith token "#" then
    match jsParseInt (strDrop token 1) with
    | none => .error ⟨lineNum, s!"Invalid immediate value: {token}",
        some "Use #123 for immediate values"⟩
    | some value => .ok ⟨.imm, .num value, none, none⟩
  else if strStartsWith token "[" && strEndsWith token "]" then
    let inner := jsTrim (strDropRight (strDrop token 1) 1)
    if inner = "" then
      .error ⟨lineNum, "Empty memory reference []",
        some "Memory references need an address or register"⟩
    else
      match matchRegOffset inner with
      | some (reg, sign, offsetValue) =>
        let offset : Int := (offsetValue : Int) * (if sign = '+' then 1 else -1)
        match registerIndex? reg with
        | none => .error ⟨lineNum, s!"Invalid register: {reg}",
            some "Valid registers: R0-R7, SP, BP"⟩
        | some idx => .ok ⟨.mem, .num idx, some offset, some true⟩
      | none =>
        let upperInner := strToUpper inner
        match registerIndex? upperInner with
        | some idx => .ok ⟨.mem, .num idx, none, some true⟩
        | none =>
          match jsParseInt inner with
          | some addr =>
            if addr < 0 ∨ RAM_SIZE ≤ addr then
              .error ⟨lineNum, s!"Address {addr} out of bounds",
                some s!"Valid range: 0-{RAM_SIZE - 1}"⟩
            else .ok ⟨.mem, .num addr, none, none⟩
          | none => .ok ⟨.mem, .str inner, none, none⟩
  else
    let upperToken := strToUpper token
    match registerIndex? upperToken with
    | some idx => .ok ⟨.reg, .num idx, none, none⟩
    | none =>
      match jsParseInt token with
      | some num => .ok ⟨.imm, .num num, none, none⟩
      | none =>
        if isValidLabelName token then .ok ⟨.label, .str token, none, none⟩
        else .error ⟨lineNum, s!"Invalid operand: {token}",
          some "Use #imm, Rk, [addr], or label"⟩

/-- The fixed per-opcode arity table `expectedCounts`. -/
def expectedCounts (op : String) : Option Nat :=
  if op = "NOP" then some 0 else if op = "HALT" then some 0
  else if op = "MOV" then some 2 else if op = "LOAD" then some 2
  else if op = "STORE" then some 2 else if op = "LEA" then some 2
  else if op = "ADD" then some 2 else if op = "SUB" then some 2
  else if op = "MUL" then some 2 else if op = "DIV" then some 2
  else if op = "AND" then some 2 else if op = "OR" then some 2
  else if op = "XOR" then some 2 else if op = "SHL" then some 2
  else if op = "SHR" then some 2
  else if op = "INC" then some 1 else if op = "DEC" then some 1
  else if op = "NOT" then some 1
  else if op = "CMP" then some 2 else if op = "JMP" then some 1
  else if op = "JZ" then some 1 else if op = "JNZ" then some 1
  else if op = "JC" then some 1 else if op = "JNC" then some 1
  else if op = "JN" then some 1 else if op = "JNN" then some 1
  else if op = "JG" then some 1 else if op = "JGE" then some 1
  else if op = "JL" then some 1 else if op = "JLE" then some 1
  else if op = "PUSH" then some 1 else if op = "POP" then some 1
  else if op = "CALL" then some 1 else if op = "RET" then some 0
  else if op = "SYS" then some 1
  else none

/-- `validateInstructionOperands(op, operands, lineNum)`. -/
def validateInstructionOperands (op : String) (operands : List Operand)
    (lineNum : Nat) : Except AsmErr Unit :=
  match expectedCounts op with
  | none => .error ⟨lineNum, s!"Unknown instruction: {op}", none⟩
  | some expected =>
    let actual := operands.length
    if actual ≠ expected then
      .error ⟨lineNum, s!"{op} expects {expected} operand(s), got {actual}",
        some s!"Check the instruction manual for {op}"⟩
    else .ok ()

/-- The `Uint8Array(8192)` data section. -/
def DataArr : Type := Nat → Nat

/-- A `Uint8Array` element store (`ToUint8` conversion). -/
def DataArr.set (arr : DataArr) (i : Nat) (b : Int) : DataArr :=
  fun j => if j = i then (b % 256).toNat else arr j

/-- Append one little-endian `.WORD` value (4 bytes) with the
`dataPtr + 4 > dataSection.length` overflow check. -/
def appendWord (lineNum : Nat) (d : DataArr × Nat) (val : Int) :
    Except AsmErr (DataArr × Nat) :=
  if 8192 < d.2 + 4 then
    .error ⟨lineNum, "Data section overflow", some "Too much data defined"⟩
  else
    let arr := d.1.set d.2 (jsAnd val 255)
    let arr := arr.set (d.2 + 1) (jsAnd (jsShrS val 8) 255)
    let arr := arr.set (d.2 + 2) (jsAnd (jsShrS val 16) 255)
    let arr := arr.set (d.2 + 3) (jsAnd (jsShrS val 24) 255)
    .ok (arr, d.2 + 4)

/-- Append one `.BYTE` value with the overflow check. -/
def appendByte (lineNum : Nat) (d : DataArr × Nat) (val : Int) :
    Except AsmErr (DataArr × Nat) :=
  if 8192 ≤ d.2 then
    .error ⟨lineNum, "Data section overflow", some "Too much data defined"⟩
  else .ok (d.1.set d.2 val, d.2 + 1)

/-- Append one `.STRING` character (`str.charCodeAt(j)`). -/
def appendStrByte (lineNum : Nat) (d : DataArr × Nat) (c : Char) :
    Except AsmErr (DataArr × Nat) :=
  if 8192 ≤ d.2 then
    .error ⟨lineNum, "Data section overflow", some "String too long"⟩
  else .ok (d.1.set d.2 (c.toNat : Int), d.2 + 1)

/-- Parse the comma-separated `.WORD` value list. -/
def parseWordValues (lineNum : Nat) (valueStr : String) : Except AsmErr (List Int) :=
  (jsSplitChar ',' valueStr).mapM (fun v =>
    match jsParseInt (jsTrim v) with
    | none =>
      let vt := jsTrim v
      .error ⟨lineNum, s!"Invalid .WORD value: {vt}", some "Values must be integers"⟩
    | some num => .ok num)

/-- Parse the comma-separated `.BYTE` value list with the 0-255 range check. -/
def parseByteValues (lineNum : Nat) (valueStr : String) : Except AsmErr (List Int) :=
  (jsSplitChar ',' valueStr).mapM (fun v =>
    let vt := jsTrim v
    match jsParseInt vt with
    | none => .error ⟨lineNum, s!"Invalid .BYTE value: {vt}", some "Values must be 0-255"⟩
    | some num =>
      if num < 0 ∨ 255 < num then
        .error ⟨lineNum, s!"Invalid .BYTE value: {vt}", some "Values must be 0-255"⟩
      else .ok num)

/-- Case-insensitive prefix test used for the `.STRING` regex scan. -/
def upperPrefixIs : List Char → List Char → Bool
  | [], _ => true
  | _ :: _, [] => false
  | p :: ps, c :: cs => (c.toUpper = p) && upperPrefixIs ps cs

/-- The `\s+"([^"]*)"` tail of the `.STRING` regex. -/
def stringAfterDirective (cs : List Char) : Option (List Char) :=
  let ws := cs.takeWhile (·.isWhitespace)
  let rest := cs.dropWhile (·.isWhitespace)
  if ws = [] then none
  else
    match rest with
    | '"' :: rest2 =>
      let captured := rest2.takeWhile (· ≠ '"')
      let tail := rest2.dropWhile (· ≠ '"')
      match tail with
      | '"' :: _ => some captured
      | _ => none
    | _ => none

/-- The regex match `trimmed.match(/\.STRING\s+"([^"]*)"/i)`: scan for the
first position where the pattern matches and return the capture. -/
def matchStringDirective : List Char → Option (List Char)
  | [] => none
  | c :: rest =>
    if upperPrefixIs ".STRING".data (c :: rest) then
      match stringAfterDirective ((c :: rest).drop 7) with
      | some captured => some captured
      | none => matchStringDirective rest
    else matchStringDirective rest

/-- The fixed `validOps` list. -/
def validOps : List String :=
  ["NOP", "HALT", "MOV", "LOAD", "STORE", "LEA",
   "ADD", "SUB", "MUL", "DIV", "INC", "DEC",
   "AND", "OR", "XOR", "NOT", "SHL", "SHR",
   "CMP", "JMP", "JZ", "JNZ", "JC", "JNC", "JN", "JNN",
   "JG", "JGE", "JL", "JLE", "PUSH", "POP", "CALL", "RET", "SYS"]

/-- Hint accompanying an unknown-instruction error. -/
def validOpsHint : String := "Valid instructions: " ++ strJoin ", " validOps

/-- Pass-1 accumulator state. -/
structure P1St where
  ast : List Instruction
  labels : Labels
  dataSection : DataArr
  dataPtr : Nat
  currentAddress : Int
  inDataSection : Bool
  textStart : Int

/-- Initial pass-1 state. -/
def pass1Init : P1St :=
  ⟨[], [], fun _ => 0, 0, 0, false, 0⟩

/-- The pass-1 `switch (directive)` block. -/
def pass1Directive (lineNum : Nat) (trimmed : String) (st : P1St) :
    Except AsmErr P1St :=
  let parts := splitWs trimmed
  let directive := strToUpper (parts.headD "")
  if directive = ".DATA" then .ok { st with inDataSection := true }
  else if directive = ".TEXT" then
    .ok { st with inDataSection := false, textStart := st.currentAddress }
  else if directive = ".ORG" then
    if parts.length < 2 then
      .error ⟨lineNum, ".ORG requires address", some "Usage: .ORG 1000"⟩
    else
      match jsParseInt (parts.getD 1 "") with
      | none => .error ⟨lineNum, "Invalid .ORG address",
          some "Address must be a positive number"⟩
      | some orgAddr =>
        if orgAddr < 0 then
          .error ⟨lineNum, "Invalid .ORG address",
            some "Address must be a positive number"⟩
        else .ok { st with currentAddress := orgAddr }
  else if directive = ".WORD" then
    if st.inDataSection then
      if parts.length < 2 then
        .error ⟨lineNum, ".WORD requires values", some "Usage: .WORD 1, 2, 3"⟩
      else do
        let values ← parseWordValues lineNum (joinSpace (parts.drop 1))
        let d ← values.foldlM (appendWord lineNum) (st.dataSection, st.dataPtr)
        .ok { st with dataSection := d.1, dataPtr := d.2 }
    else .ok st
  else if directive = ".BYTE" then
    if st.inDataSection then
      if parts.length < 2 then
        .error ⟨lineNum, ".BYTE requires values", some "Usage: .BYTE 65, 66, 67"⟩
      else do
        let values ← parseByteValues lineNum (joinSpace (parts.drop 1))
        let d ← values.foldlM (appendByte lineNum) (st.dataSection, st.dataPtr)
        .ok { st with dataSection := d.1, dataPtr := d.2 }
    else .ok st
  else if directive = ".STRING" then
    if st.inDataSection then
      match matchStringDirective trimmed.data with
      | none => .error ⟨lineNum, "Invalid .STRING format",
          some "Usage: .STRING \"Hello World\""⟩
      | some str => do
        let d ← str.foldlM (appendStrByte lineNum) (st.dataSection, st.dataPtr)
        if 8192 ≤ d.2 then
          .error ⟨lineNum, "Data section overflow", some "No space for null terminator"⟩
        else
          .ok { st with dataSection := d.1.set d.2 0, dataPtr := d.2 + 1 }
    else .ok st
  else
    .error ⟨lineNum, s!"Unknown directive: {directive}",
      some "Valid directives: .DATA, .TEXT, .ORG, .WORD, .BYTE, .STRING"⟩

/-- Pass-1 handling of the text after `label:` on the same line. -/
def processAfterLabel (lineNum : Nat) (afterColon : String) (st : P1St) :
    Except AsmErr P1St :=
  if afterColon = "" ∨ strStartsWith afterColon ";" ∨ strStartsWith afterColon "//" then
    .ok st
  else if strStartsWith afterColon ".WORD" then
    let parts := splitWs afterColon
    if parts.length < 2 then
      .error ⟨lineNum, ".WORD requires values", some "Usage: label: .WORD 1, 2, 3"⟩
    else do
      let values ← parseWordValues lineNum (joinSpace (parts.drop 1))
      let d ← values.foldlM (appendWord lineNum) (st.dataSection, st.dataPtr)
      .ok { st with dataSection := d.1, dataPtr := d.2 }
  else if !st.inDataSection then
    let tokens := splitWs afterColon
    let op := strToUpper (tokens.headD "")
    .ok { st with ast := st.ast ++ [⟨op, [], lineNum, afterColon⟩],
                  currentAddress := st.currentAddress + 1 }
  else .ok st

/-- Pass-1 handling of a label-definition line. -/
def pass1Label (lineNum : Nat) (before after : String) (st : P1St) :
    Except AsmErr P1St :=
  let labelName := jsTrim before
  if labelName = "" then
    .error ⟨lineNum, "Empty label name", some "Labels must have a name before the colon"⟩
  else if isValidLabelName labelName = false then
    .error ⟨lineNum, s!"Invalid label name: {labelName}",
      some "Labels must start with letter/underscore, contain only alphanumeric/underscore"⟩
  else if (st.labels.find labelName).isSome then
    .error ⟨lineNum, s!"Duplicate label: {labelName}",
      some "Each label can only be defined once"⟩
  else
    let addr : Int := if st.inDataSection then (st.dataPtr : Int) else st.currentAddress
    processAfterLabel lineNum (jsTrim after)
      { st with labels := (labelName, addr) :: st.labels }

/-- Pass 1, one source line. -/
def pass1Line (lineNum : Nat) (line : String) (st : P1St) : Except AsmErr P1St :=
  let trimmed := jsTrim line
  if trimmed = "" ∨ strStartsWith trimmed ";" ∨ strStartsWith trimmed "//" then .ok st
  else if strStartsWith trimmed "." then pass1Directive lineNum trimmed st
  else
    match beforeAfterColon trimmed with
    | some (before, after) => pass1Label lineNum before after st
    | none =>
      if !st.inDataSection then
        let tokens := splitWs trimmed
        let op := strToUpper (tokens.headD "")
        if validOps.contains op = false then
          .error ⟨lineNum, s!"Unknown instruction: {op}", some validOpsHint⟩
        else
          .ok { st with ast := st.ast ++ [⟨op, [], lineNum, trimmed⟩],
                        currentAddress := st.currentAddress + 1 }
      else .ok st

/-- Pass 1 over the numbered source lines. -/
def pass1Aux : List (Nat × String) → P1St → Except AsmErr P1St
  | [], st => .ok st
  | (n, l) :: rest, st => do pass1Aux rest (← pass1Line n l st)

/-- The source lines paired with their 1-based line numbers. -/
def enumLines (source : String) : List (Nat × String) :=
  (jsSplitChar '\n' source).enum.map (fun p => (p.1 + 1, p.2))

/-- Pass-2 accumulator: the instructions already given their operands, and
the running `astIndex`. -/
structure P2St where
  done : List Instruction
  astIndex : Nat

/-- Split the operand text on commas and parse each token. -/
def parseOperandList (lineNum : Nat) (tokens : List String) :
    Except AsmErr (List Operand) :=
  if 1 < tokens.length then
    let operandStr := joinSpace (tokens.drop 1)
    let operandTokens := ((jsSplitChar ',' operandStr).map jsTrim).filter (· ≠ "")
    operandTokens.mapM (fun t => parseOperand t lineNum)
  else .ok []

/-- Pass 2, one source line. -/
def pass2Line (ast : List Instruction) (lineNum : Nat) (line : String)
    (st : P2St) : Except AsmErr P2St :=
  let trimmed := jsTrim line
  if trimmed = "" ∨ strStartsWith trimmed ";" ∨ strStartsWith trimmed "//" ∨
      strStartsWith trimmed "." then .ok st
  else
    let instructionPart? : Option String :=
      match beforeAfterColon trimmed with
      | some (_, after) =>
        let afterColon := jsTrim after
        if afterColon ≠ "" ∧ ¬strStartsWith afterColon ";" ∧ ¬strStartsWith afterColon "//" then
          some afterColon
        else none
      | none => some trimmed
    match instructionPart? with
    | none => .ok st
    | some instructionPart =>
      let tokens := splitWs instructionPart
      let op := strToUpper (tokens.headD "")
      if ast.length ≤ st.astIndex then
        .error ⟨lineNum, "Internal assembler error", some "AST index out of bounds"⟩
      else do
        let instruction := ast.getD st.astIndex ⟨"", [], 0, ""⟩
        let operands ← parseOperandList lineNum tokens
        validateInstructionOperands op operands lineNum
        .ok ⟨st.done ++ [{ instruction with operands := operands }], st.astIndex + 1⟩

/-- Pass 2 over the numbered source lines. -/
def pass2Aux (ast : List Instruction) :
    List (Nat × String) → P2St → Except AsmErr P2St
  | [], st => .ok st
  | (n, l) :: rest, st => do pass2Aux ast rest (← pass2Line ast n l st)

/-- The final undefined-label validation over the parsed instructions. -/
def checkLabels (labels : Labels) (ast : List Instruction) : Except AsmErr Unit :=
  ast.forM (fun instruction =>
    instruction.operands.forM (fun operand =>
      let vs := operand.value.asString
      if operand.type = .label ∧ (labels.find vs).isNone then
        .error ⟨instruction.line, s!"Undefined label: {vs}",
          some "Make sure the label is defined with labelname:"⟩
      else if operand.type = .mem ∧ operand.value.isStr ∧ (labels.find vs).isNone then
        .error ⟨instruction.line, s!"Undefined label in memory reference: {vs}",
          some "Make sure the label is defined with labelname:"⟩
      else .ok ()))

/-- `assemble(source)`: the two-pass EduASM assembler. -/
def assemble (source : String) : Except AsmErr Program := do
  let lines := jsSplitChar '\n' source
  let st1 ← pass1Aux (enumLines source) pass1Init
  let st2 ← pass2Aux st1.ast (enumLines source) ⟨[], 0⟩
  let finalAst := st2.done ++ st1.ast.drop st2.astIndex
  checkLabels st1.labels finalAst
  .ok ⟨lines, finalAst, st1.labels, st1.dataSection, st1.textStart⟩

/-- Whether a source line is an `.ORG` directive (the pass-1 `directive`
computation applied to the line). -/
def isOrgLine (line : String) : Bool :=
  strToUpper ((splitWs (jsTrim line)).headD "") = ".ORG"

/-! ### Iterated stack operations and concrete fixtures -/

/-- Execute the `PUSH` state transformation once per value, left to right,
stopping at the first fault. -/
def pushAll : CPU → Mem → List Int → CPU × Mem × Option String
  | cpu, ram, [] => (cpu, ram, none)
  | cpu, ram, v :: vs =>
    let p := pushValue cpu ram v
    match p.2.2 with
    | some e => (p.1, p.2.1, some e)
    | none => pushAll p.1 p.2.1 vs

/-- Execute the `POP` read transformation `n` times, collecting the popped
values in order, stopping at the first fault. -/
def popAll : CPU → Mem → Nat → CPU × Mem × Option String × List Int
  | cpu, ram, 0 => (cpu, ram, none, [])
  | cpu, ram, n + 1 =>
    let p := popValue cpu ram
    match p.2.2.1 with
    | some e => (p.1, p.2.1, some e, [])
    | none =>
      let rest := popAll p.1 p.2.1 n
      (rest.1, rest.2.1, rest.2.2.1, p.2.2.2 :: rest.2.2.2)

/-- A placeholder `Instruction` for out-of-bounds list reads. -/
def defaultInstruction : Instruction := ⟨"", [], 0, ""⟩

/-- The empty program (placeholder for fixture extraction). -/
def emptyProgram : Program := ⟨[], [], [], fun _ => 0, 0⟩

/-- Extract the program from a successful assembly. -/
def progOf (src : String) : Program := (assemble src).toOption.getD emptyProgram

/-- The overflow test program of the specification. -/
def c1Program : Program := progOf "MOV R0,#2147483647\nADD R0,#1"

/-- First step of the overflow test program. -/
def c1Step1 : StepOut := step createCPU c1Program zeroMem

/-- Second step of the overflow test program. -/
def c1Step2 : StepOut := step c1Step1.cpu c1Program c1Step1.ram

/-- A left shift whose shifted-out bit is 1. -/
def c2ShlProgram : Program := progOf "MOV R0,#-2147483648\nSHL R0,#1"

/-- First step of the shift-left fixture. -/
def c2ShlStep1 : StepOut := step createCPU c2ShlProgram zeroMem

/-- Second step of the shift-left fixture. -/
def c2ShlStep2 : StepOut := step c2ShlStep1.cpu c2ShlProgram c2ShlStep1.ram

/-- A right shift whose shifted-out bit is 1. -/
def c2ShrProgram : Program := progOf "MOV R0,#1\nSHR R0,#1"

/-- First step of the shift-right fixture. -/
def c2ShrStep1 : StepOut := step createCPU c2ShrProgram zeroMem

/-- Second step of the shift-right fixture. -/
def c2ShrStep2 : StepOut := step c2ShrStep1.cpu c2ShrProgram c2ShrStep1.ram

/-- A taken conditional jump to instruction index 5 in a 2-instruction
program. -/
def c3JzProgram : Program := progOf "CMP R0,#0\nJZ 5"

/-- First step: the CMP sets ZF. -/
def c3Step1 : StepOut := step createCPU c3JzProgram zeroMem

/-- Second step: the taken JZ. -/
def c3Step2 : StepOut := step c3Step1.cpu c3JzProgram c3Step1.ram

/-- Third step: executed with the out-of-range instruction pointer. -/
def c3Step3 : StepOut := step c3Step2.cpu c3JzProgram c3Step2.ram

/-- An unconditional jump to an out-of-range target. -/
def c3JmpProgram : Program := progOf "JMP 5"

/-- A single conditional jump to an out-of-range target. -/
def c3JzOnly : Program := progOf "JZ 5"

/-- A multiplication whose exact product is 2^32. -/
def c4Program : Program := progOf "MOV R0,#65536\nMUL R0,#65536"

/-- First step of the multiplication fixture. -/
def c4Step1 : StepOut := step createCPU c4Program zeroMem

/-- Second step of the multiplication fixture. -/
def c4Step2 : StepOut := step c4Step1.cpu c4Program c4Step1.ram

/-- The division-fault test program of the specification. -/
def c5Program : Program := progOf "DIV R0,R1"

/-- The infinite self-loop of the step-budget test. -/
def c8Program : Program := progOf "JMP 0"

/-- A push executed with no stack room. -/
def c9PushProgram : Program := progOf "PUSH R0"

/-- A call executed with no stack room. -/
def c9CallProgram : Program := progOf "CALL 0"

/-- A logical right shift of a negative register. -/
def c10Program : Program := progOf "SHR R0,#1"

/-- A CPU with the zero flag set. -/
def cpuZF : CPU :=
  { createCPU with F := { ZF := true, NF := false, CF := false, OF := false } }

/-- A CPU whose stack pointer leaves no room to push. -/
def cpuSP0 : CPU := { createCPU with SP := 0 }

/-- A CPU whose instruction pointer is past the end of any short program. -/
def cpuIP7 : CPU := { createCPU with IP := 7 }

/-- A CPU with a mid-stack pointer. -/
def cpuSP100 : CPU := { createCPU with SP := 100 }

/-- A CPU holding a negative value in R0. -/
def cpuR0neg8 : CPU := { createCPU with R := fun i => if i = 0 then -8 else 0 }

/-- Pass-1 state after assembling the single line NOP. -/
def c6StNop : P1St := ⟨[⟨"NOP", [], 1, "NOP"⟩], [], fun _ => 0, 0, 1, false, 0⟩

/-- Pass-1 state after processing a single label definition. -/
def c6StFoo : P1St := ⟨[], [("foo", 0)], fun _ => 0, 0, 0, false, 0⟩

/-- Pass-1 state after the label definition and one instruction. -/
def c6StFooNop : P1St :=
  ⟨[⟨"NOP", [], 2, "NOP"⟩], [("foo", 0)], fun _ => 0, 0, 1, false, 0⟩

end EduASM

deriving instance DecidableEq for Except

namespace EduASM

/-! ### Arithmetic and memory lemmas -/

theorem toUint32_nonneg (x : Int) : 0 ≤ toUint32 x := by unfold toUint32; omega

theorem toUint32_lt (x : Int) : toUint32 x < 4294967296 := by
  unfold toUint32; omega

theorem toInt32_eq_self (x : Int) (h1 : -2147483648 ≤ x) (h2 : x < 2147483648) :
    toInt32 x = x := by unfold toInt32; omega

theorem toInt32_as_uint (v : Int) :
    toInt32 v =
      (if toUint32 v < 2147483648 then toUint32 v else toUint32 v - 4294967296) := by
  unfold toInt32 toUint32
  split <;> omega

theorem setByte_same (m : Mem) (a : Int) (b : Nat) : (m.setByte a b) a = b % 256 := by
  simp [Mem.setByte]

theorem setByte_ne (m : Mem) (a x : Int) (b : Nat) (h : x ≠ a) :
    (m.setByte a b) x = m x := by
  simp [Mem.setByte, h]

theorem getInt32_setInt32_same (m : Mem) (a : Int) (v : Int) :
    (m.setInt32 a v).getInt32 a = toInt32 v := by
  have hu0 : 0 ≤ toUint32 v := toUint32_nonneg v
  have hu1 : toUint32 v < 4294967296 := toUint32_lt v
  simp only [Mem.setInt32, Mem.getInt32, Mem.getByte]
  rw [setByte_ne _ _ _ _ (by omega), setByte_ne _ _ _ _ (by omega),
      setByte_ne _ _ _ _ (by omega), setByte_same]
  rw [setByte_ne _ _ _ _ (by omega), setByte_ne _ _ _ _ (by omega), setByte_same]
  rw [setByte_ne _ _ _ _ (by omega), setByte_same]
  rw [setByte_same]
  rw [toInt32_as_uint]
  have := Int.toNat_of_nonneg hu0
  split <;> split <;> omega

theorem setInt32_frame (m : Mem) (a v : Int) (x : Int) (h : x < a ∨ a + 4 ≤ x) :
    (m.setInt32 a v) x = m x := by
  simp only [Mem.setInt32]
  rw [setByte_ne _ _ _ _ (by omega), setByte_ne _ _ _ _ (by omega),
      setByte_ne _ _ _ _ (by omega), setByte_ne _ _ _ _ (by omega)]

theorem getInt32_congr (m1 m2 : Mem) (a : Int)
    (h : ∀ i, a ≤ i → i < a + 4 → m1 i = m2 i) :
    m1.getInt32 a = m2.getInt32 a := by
  simp only [Mem.getInt32, Mem.getByte]
  rw [h a (le_refl a) (by omega), h (a + 1) (by omega) (by omega),
      h (a + 2) (by omega) (by omega), h (a + 3) (by omega) (by omega)]

theorem jsShrU_nonneg (x k : Int) : 0 ≤ jsShrU x k := by
  unfold jsShrU
  exact Int.ediv_nonneg (toUint32_nonneg x) (by positivity)

theorem jsShrU_lt (x k : Int) (h1 : 1 ≤ k) (h2 : k ≤ 31) :
    jsShrU x k < 2147483648 := by
  unfold jsShrU shiftCount
  have hk : toUint32 k = k := by unfold toUint32; omega
  rw [hk]
  have hkn : k.toNat % 32 = k.toNat := Nat.mod_eq_of_lt (by omega)
  rw [hkn]
  have hx := toUint32_lt x
  have hx0 := toUint32_nonneg x
  have hpow : (2 : Int) ≤ 2 ^ k.toNat := by
    calc (2 : Int) = 2 ^ 1 := by norm_num
    _ ≤ 2 ^ k.toNat := by
      apply pow_le_pow_right₀ (by norm_num)
      omega
  rw [Int.ediv_lt_iff_lt_mul (by omega)]
  nlinarith [toUint32_nonneg x]

/-! ### Register-file access lemmas -/

theorem getBase_of_update (c : CPU) (ip : Int) (f : Flags) (hb : Bool) (r : Int) :
    getBase { R := c.R, SP := c.SP, BP := c.BP, IP := ip, F := f, halted := hb } r =
      getBase c r := by
  simp [getBase]

theorem getBase_setBase_valid (cpu : CPU) (r v : Int)
    (h : r = -1 ∨ r = -2 ∨ (0 ≤ r ∧ r < 8)) :
    getBase (setBase cpu r v) r = if r = -1 ∨ r = -2 then v else toInt32 v := by
  rcases h with rfl | rfl | ⟨h1, h2⟩
  · simp [getBase, setBase]
  · simp [getBase, setBase]
  · simp only [setBase, getBase]
    rw [if_neg (by omega), if_neg (by omega), if_neg (by omega), if_neg (by omega)]
    simp [CPU.writeR, h1, h2]
    rw [if_neg (by omega)]

/-! ### Stack operation lemmas -/

theorem popAll_succ (cpu : CPU) (ram : Mem) (n : Nat) :
    popAll cpu ram (n + 1) =
      (match (popValue cpu ram).2.2.1 with
        | some e => ((popValue cpu ram).1, (popValue cpu ram).2.1, some e, [])
        | none =>
          ((popAll (popValue cpu ram).1 (popValue cpu ram).2.1 n).1,
           (popAll (popValue cpu ram).1 (popValue cpu ram).2.1 n).2.1,
           (popAll (popValue cpu ram).1 (popValue cpu ram).2.1 n).2.2.1,
           (popValue cpu ram).2.2.2 ::
             (popAll (popValue cpu ram).1 (popValue cpu ram).2.1 n).2.2.2)) := rfl

theorem pushValue_ok (cpu : CPU) (ram : Mem) (v : Int) (h : 4 ≤ cpu.SP) :
    pushValue cpu ram v =
      ({ cpu with SP := cpu.SP - 4 }, ram.setInt32 (cpu.SP - 4) v, none) := by
  simp only [pushValue]
  rw [if_neg (by simp; omega)]

theorem popValue_ok (cpu : CPU) (ram : Mem) (h : cpu.SP < RAM_SIZE - 4) :
    popValue cpu ram =
      ({ cpu with SP := cpu.SP + 4 }, ram, none, ram.getInt32 cpu.SP) := by
  simp only [popValue]
  rw [if_neg (by unfold RAM_SIZE at h ⊢; omega)]

theorem popAll_snoc : ∀ (n : Nat) (cpu : CPU) (ram : Mem) (c : CPU) (r : Mem)
    (ws : List Int) (c2 : CPU) (r2 : Mem) (w : Int),
    popAll cpu ram n = (c, r, none, ws) →
    popValue c r = (c2, r2, none, w) →
    popAll cpu ram (n + 1) = (c2, r2, none, ws ++ [w]) := by
  intro n
  induction n with
  | zero =>
    intro cpu ram c r ws c2 r2 w h1 h2
    simp only [popAll, Prod.mk.injEq] at h1
    obtain ⟨rfl, rfl, -, rfl⟩ := h1
    rw [popAll_succ, h2]
    simp [popAll]
  | succ m ih =>
    intro cpu ram c r ws c2 r2 w h1 h2
    rcases hp : popValue cpu ram with ⟨ca, ra, ea, va⟩
    cases ea with
    | some e =>
      rw [popAll_succ, hp] at h1
      simp at h1
    | none =>
      rw [popAll_succ, hp] at h1
      dsimp only at h1
      rcases hrest : popAll ca ra m with ⟨cb, rb, eb, vb⟩
      rw [hrest] at h1
      simp only [Prod.mk.injEq] at h1
      obtain ⟨rfl, rfl, rfl, rfl⟩ := h1
      have h3 := ih ca ra _ _ _ _ _ _ hrest h2
      rw [popAll_succ, hp]
      dsimp only
      rw [h3]
      simp

theorem stackRoundTrip : ∀ (vs : List Int) (cpu : CPU) (ram : Mem),
    4 * vs.length ≤ cpu.SP →
    cpu.SP ≤ RAM_SIZE - 4 →
    (∀ v ∈ vs, -2147483648 ≤ v ∧ v < 2147483648) →
    ∃ ram' : Mem,
      pushAll cpu ram vs = ({ cpu with SP := cpu.SP - 4 * vs.length }, ram', none) ∧
      (∀ x : Int, cpu.SP ≤ x → ram' x = ram x) ∧
      popAll { cpu with SP := cpu.SP - 4 * vs.length } ram' vs.length =
        (cpu, ram', none, vs.reverse) := by
  intro vs
  induction vs with
  | nil =>
    intro cpu ram h1 h2 h3
    refine ⟨ram, ?_, fun x _ => rfl, ?_⟩
    · simp [pushAll]
    · simp [popAll]
  | cons v vs ih =>
    intro cpu ram h1 h2 h3
    have hlen : (v :: vs).length = vs.length + 1 := rfl
    have hsp4 : 4 ≤ cpu.SP := by rw [hlen] at h1; omega
    have hpv := pushValue_ok cpu ram v hsp4
    obtain ⟨ram2, hpush, hframe, hpop⟩ := ih { cpu with SP := cpu.SP - 4 }
      (Mem.setInt32 ram (cpu.SP - 4) v)
      (by simp; rw [hlen] at h1; omega)
      (by simp; omega)
      (fun w hw => h3 w (List.mem_cons_of_mem v hw))
    simp only at hpush hframe hpop
    refine ⟨ram2, ?_, ?_, ?_⟩
    · simp only [pushAll, hpv]
      rw [hpush]
      congr 2
      rw [hlen]
      push_cast
      ring
    · intro x hx
      rw [hframe x (by simp; omega)]
      exact setInt32_frame _ _ _ _ (by omega)
    · have hkey : cpu.SP - 4 * ((v :: vs).length : Int) = (cpu.SP - 4) - 4 * vs.length := by
        rw [hlen]; push_cast; ring
      have hpv2 : popValue { cpu with SP := cpu.SP - 4 } ram2 =
          ({ cpu with SP := cpu.SP }, ram2, none, ram2.getInt32 (cpu.SP - 4)) := by
        have hr := popValue_ok { cpu with SP := cpu.SP - 4 } ram2
          (by simp; unfold RAM_SIZE at h2 ⊢; omega)
        simp only at hr
        rw [hr]
        congr 2
        omega
      have hval : ram2.getInt32 (cpu.SP - 4) = v := by
        rw [getInt32_congr ram2 (Mem.setInt32 ram (cpu.SP - 4) v) _
          (fun i hi1 hi2 => hframe i (by omega))]
        rw [getInt32_setInt32_same]
        exact toInt32_eq_self v (h3 v (List.mem_cons_self v vs)).1
          (h3 v (List.mem_cons_self v vs)).2
      have heta : ({ cpu with SP := cpu.SP } : CPU) = cpu := rfl
      have hlast := popAll_snoc vs.length { cpu with SP := cpu.SP - 4 - 4 * vs.length }
        ram2 { cpu with SP := cpu.SP - 4 } ram2 vs.reverse cpu ram2 v hpop
        (by rw [hpv2, hval, heta])
      rw [show ({ cpu with SP := cpu.SP - 4 * ((v :: vs).length : Int) } : CPU) =
        { cpu with SP := cpu.SP - 4 - 4 * vs.length } by rw [hkey]]
      rw [show (v :: vs).length = vs.length + 1 from rfl]
      rw [hlast]
      simp

end EduASM

/-! ### Assembler pass-1 lemmas -/

namespace EduASM

theorem pass1Directive_shape (n : Nat) (t : String) (st st' : P1St)
    (hno : strToUpper ((splitWs t).headD "") ≠ ".ORG")
    (h : pass1Directive n t st = .ok st') :
    st'.ast = st.ast ∧ st'.currentAddress = st.currentAddress ∧
      st'.labels = st.labels := by
  simp only [pass1Directive] at h
  by_cases h1 : strToUpper ((splitWs t).headD "") = ".DATA"
  · rw [if_pos h1] at h; cases h; exact ⟨rfl, rfl, rfl⟩
  rw [if_neg h1] at h
  by_cases h2 : strToUpper ((splitWs t).headD "") = ".TEXT"
  · rw [if_pos h2] at h; cases h; exact ⟨rfl, rfl, rfl⟩
  rw [if_neg h2, if_neg hno] at h
  by_cases h3 : strToUpper ((splitWs t).headD "") = ".WORD"
  · rw [if_pos h3] at h
    by_cases hd : st.inDataSection
    · rw [if_pos hd] at h
      split_ifs at h
      rcases hv : parseWordValues n (joinSpace (List.drop 1 (splitWs t))) with e | vals
      · rw [hv] at h; simp [Bind.bind, Except.bind] at h
      · rw [hv] at h
        simp only [Bind.bind, Except.bind] at h
        rcases hf : List.foldlM (appendWord n) (st.dataSection, st.dataPtr) vals with e | d
        · rw [hf] at h; simp at h
        · rw [hf] at h; simp only [Bind.bind, Except.bind] at h
          cases h; exact ⟨rfl, rfl, rfl⟩
    · rw [if_neg hd] at h; cases h; exact ⟨rfl, rfl, rfl⟩
  rw [if_neg h3] at h
  by_cases h4 : strToUpper ((splitWs t).headD "") = ".BYTE"
  · rw [if_pos h4] at h
    by_cases hd : st.inDataSection
    · rw [if_pos hd] at h
      split_ifs at h
      rcases hv : parseByteValues n (joinSpace (List.drop 1 (splitWs t))) with e | vals
      · rw [hv] at h; simp [Bind.bind, Except.bind] at h
      · rw [hv] at h
        simp only [Bind.bind, Except.bind] at h
        rcases hf : List.foldlM (appendByte n) (st.dataSection, st.dataPtr) vals with e | d
        · rw [hf] at h; simp at h
        · rw [hf] at h; simp only [Bind.bind, Except.bind] at h
          cases h; exact ⟨rfl, rfl, rfl⟩
    · rw [if_neg hd] at h; cases h; exact ⟨rfl, rfl, rfl⟩
  rw [if_neg h4] at h
  by_cases h5 : strToUpper ((splitWs t).headD "") = ".STRING"
  · rw [if_pos h5] at h
    by_cases hd : st.inDataSection
    · rw [if_pos hd] at h
      rcases hm : matchStringDirective t.data with _ | captured
      · rw [hm] at h; simp at h
      · rw [hm] at h
        simp only [Bind.bind, Except.bind] at h
        rcases hf : List.foldlM (appendStrByte n) (st.dataSection, st.dataPtr) captured with e | d
        · rw [hf] at h; simp [Bind.bind, Except.bind] at h
        · rw [hf] at h
          simp only [Bind.bind, Except.bind] at h
          split_ifs at h
          cases h; exact ⟨rfl, rfl, rfl⟩
    · rw [if_neg hd] at h; cases h; exact ⟨rfl, rfl, rfl⟩
  rw [if_neg h5] at h
  cases h

end EduASM

namespace EduASM

theorem processAfterLabel_shape (n : Nat) (a : String) (st st' : P1St)
    (h : processAfterLabel n a st = .ok st') :
    st'.labels = st.labels ∧
    (st'.currentAddress = st.currentAddress ∧ st'.ast = st.ast ∨
     st'.currentAddress = st.currentAddress + 1 ∧
       st'.ast.length = st.ast.length + 1) := by
  simp only [processAfterLabel] at h
  by_cases h1 : a = "" ∨ strStartsWith a ";" = true ∨ strStartsWith a "//" = true
  · rw [if_pos (by simpa using h1)] at h
    cases h; exact ⟨rfl, .inl ⟨rfl, rfl⟩⟩
  rw [if_neg (by simpa using h1)] at h
  by_cases h2 : strStartsWith a ".WORD" = true
  · rw [if_pos h2] at h
    split_ifs at h
    rcases hv : parseWordValues n (joinSpace (List.drop 1 (splitWs a))) with e | vals
    · rw [hv] at h; simp [Bind.bind, Except.bind] at h
    · rw [hv] at h
      simp only [Bind.bind, Except.bind] at h
      rcases hf : List.foldlM (appendWord n) (st.dataSection, st.dataPtr) vals with e | d
      · rw [hf] at h; simp at h
      · rw [hf] at h; simp only at h
        cases h; exact ⟨rfl, .inl ⟨rfl, rfl⟩⟩
  rw [if_neg h2] at h
  cases hds : st.inDataSection
  · rw [hds] at h
    simp only [Bool.not_false] at h
    rw [if_pos trivial] at h
    cases h
    refine ⟨rfl, .inr ⟨rfl, ?_⟩⟩
    simp
  · rw [hds] at h
    simp only [Bool.not_true] at h
    rw [if_neg (by simp)] at h
    cases h; exact ⟨rfl, .inl ⟨rfl, rfl⟩⟩

theorem pass1Label_shape (n : Nat) (before after : String) (st st' : P1St)
    (h : pass1Label n before after st = .ok st') :
    st'.labels = (jsTrim before,
        if st.inDataSection then (st.dataPtr : Int) else st.currentAddress) ::
      st.labels ∧
    (st'.currentAddress = st.currentAddress ∧ st'.ast = st.ast ∨
     st'.currentAddress = st.currentAddress + 1 ∧
       st'.ast.length = st.ast.length + 1) ∧
    (st.labels.find (jsTrim before)).isSome = false := by
  simp only [pass1Label] at h
  by_cases h1 : jsTrim before = ""
  · rw [if_pos h1] at h; cases h
  rw [if_neg h1] at h
  by_cases h2 : isValidLabelName (jsTrim before) = false
  · rw [if_pos h2] at h; cases h
  rw [if_neg h2] at h
  by_cases h3 : (st.labels.find (jsTrim before)).isSome = true
  · rw [if_pos h3] at h; cases h
  rw [if_neg h3] at h
  obtain ⟨hl, hd⟩ := processAfterLabel_shape _ _ _ _ h
  exact ⟨by rw [hl], by simpa using hd, by simpa using h3⟩

end EduASM

namespace EduASM

theorem pass1Line_shape (n : Nat) (line : String) (st st' : P1St)
    (hno : isOrgLine line = false)
    (h : pass1Line n line st = .ok st') :
    (st'.labels = st.labels ∨
      ∃ name addr, st'.labels = (name, addr) :: st.labels ∧
        (st.labels.find name).isSome = false ∧
        name = jsTrim ((beforeAfterColon (jsTrim line)).getD ("", "")).1 ∧
        addr = (if st.inDataSection then (st.dataPtr : Int) else st.currentAddress)) ∧
    (st'.currentAddress = st.currentAddress ∧ st'.ast = st.ast ∨
     st'.currentAddress = st.currentAddress + 1 ∧
       st'.ast.length = st.ast.length + 1) := by
  have hno' : strToUpper ((splitWs (jsTrim line)).headD "") ≠ ".ORG" := by
    simpa [isOrgLine] using hno
  simp only [pass1Line] at h
  by_cases h1 : jsTrim line = "" ∨ strStartsWith (jsTrim line) ";" = true ∨
      strStartsWith (jsTrim line) "//" = true
  · rw [if_pos (by simpa using h1)] at h
    cases h; exact ⟨.inl rfl, .inl ⟨rfl, rfl⟩⟩
  rw [if_neg (by simpa using h1)] at h
  by_cases h2 : strStartsWith (jsTrim line) "." = true
  · rw [if_pos h2] at h
    obtain ⟨ha, hc, hl⟩ := pass1Directive_shape _ _ _ _ hno' h
    exact ⟨.inl hl, .inl ⟨hc, ha⟩⟩
  rw [if_neg h2] at h
  rcases hcolon : beforeAfterColon (jsTrim line) with _ | ⟨before, after⟩
  · rw [hcolon] at h
    dsimp only at h
    cases hds : st.inDataSection
    · rw [hds] at h
      simp only [Bool.not_false] at h
      rw [if_pos trivial] at h
      by_cases h3 : validOps.contains (strToUpper ((splitWs (jsTrim line)).headD "")) = false
      · rw [if_pos h3] at h; cases h
      · rw [if_neg h3] at h
        cases h
        exact ⟨.inl rfl, .inr ⟨rfl, by simp⟩⟩
    · rw [hds] at h
      simp only [Bool.not_true] at h
      rw [if_neg (by simp)] at h
      cases h; exact ⟨.inl rfl, .inl ⟨rfl, rfl⟩⟩
  · rw [hcolon] at h
    dsimp only at h
    obtain ⟨hl, hd, hfresh⟩ := pass1Label_shape _ _ _ _ _ h
    refine ⟨.inr ⟨jsTrim before, _, hl, hfresh, ?_, rfl⟩, hd⟩
    rfl

theorem pass1Line_invariant (n : Nat) (line : String) (st st' : P1St)
    (hno : isOrgLine line = false)
    (h : pass1Line n line st = .ok st')
    (hinv : st.currentAddress = (st.ast.length : Int)) :
    st'.currentAddress = (st'.ast.length : Int) := by
  obtain ⟨-, hd⟩ := pass1Line_shape n line st st' hno h
  rcases hd with ⟨hc, ha⟩ | ⟨hc, ha⟩
  · rw [hc, ha]; exact hinv
  · rw [hc, ha]; push_cast; omega

theorem find_cons_ne (l : Labels) (k name : String) (a : Int)
    (hne : name ≠ k) : Labels.find ((k, a) :: l) name = Labels.find l name := by
  simp [Labels.find, List.lookup, beq_eq_false_iff_ne.mpr hne]

theorem find_cons_self (l : Labels) (k : String) (a : Int) :
    Labels.find ((k, a) :: l) k = some a := by
  simp [Labels.find, List.lookup]

theorem pass1Directive_labels (n : Nat) (t : String) (st st' : P1St)
    (h : pass1Directive n t st = .ok st') : st'.labels = st.labels := by
  by_cases hno : strToUpper ((splitWs t).headD "") = ".ORG"
  · simp only [pass1Directive] at h
    rw [if_neg (by rw [hno]; decide), if_neg (by rw [hno]; decide), if_pos hno] at h
    by_cases hp : (splitWs t).length < 2
    · rw [if_pos hp] at h; cases h
    rw [if_neg hp] at h
    rcases hj : jsParseInt ((splitWs t).getD 1 "") with _ | orgAddr
    · rw [hj] at h; dsimp only at h; cases h
    · rw [hj] at h
      dsimp only at h
      by_cases hneg : orgAddr < 0
      · rw [if_pos hneg] at h; cases h
      · rw [if_neg hneg] at h; cases h; rfl
  · exact (pass1Directive_shape n t st st' hno h).2.2

theorem pass1Line_labels (n : Nat) (line : String) (st st' : P1St)
    (h : pass1Line n line st = .ok st') :
    st'.labels = st.labels ∨
      ∃ k a, st'.labels = (k, a) :: st.labels ∧
        (st.labels.find k).isSome = false := by
  simp only [pass1Line] at h
  by_cases h1 : jsTrim line = "" ∨ strStartsWith (jsTrim line) ";" = true ∨
      strStartsWith (jsTrim line) "//" = true
  · rw [if_pos (by simpa using h1)] at h
    cases h; exact .inl rfl
  rw [if_neg (by simpa using h1)] at h
  by_cases h2 : strStartsWith (jsTrim line) "." = true
  · rw [if_pos h2] at h
    exact .inl (pass1Directive_labels _ _ _ _ h)
  rw [if_neg h2] at h
  rcases hcolon : beforeAfterColon (jsTrim line) with _ | ⟨before, after⟩
  · rw [hcolon] at h
    dsimp only at h
    cases hds : st.inDataSection
    · rw [hds] at h
      simp only [Bool.not_false] at h
      rw [if_pos trivial] at h
      by_cases h3 : validOps.contains (strToUpper ((splitWs (jsTrim line)).headD "")) = false
      · rw [if_pos h3] at h; cases h
      · rw [if_neg h3] at h
        cases h; exact .inl rfl
    · rw [hds] at h
      simp only [Bool.not_true] at h
      rw [if_neg (by simp)] at h
      cases h; exact .inl rfl
  · rw [hcolon] at h
    dsimp only at h
    obtain ⟨hl, -, hfresh⟩ := pass1Label_shape _ _ _ _ _ h
    exact .inr ⟨jsTrim before, _, hl, hfresh⟩

theorem pass1Line_find_mono (n : Nat) (line : String) (st st' : P1St)
    (name : String) (v : Int)
    (h : pass1Line n line st = .ok st')
    (hfind : st.labels.find name = some v) :
    st'.labels.find name = some v := by
  rcases pass1Line_labels n line st st' h with hl | ⟨k, a, hl, hfresh⟩
  · rw [hl]; exact hfind
  · rw [hl]
    have hne : name ≠ k := by
      intro he
      rw [he] at hfind
      rw [hfind] at hfresh
      simp at hfresh
    rw [find_cons_ne _ _ _ _ hne]
    exact hfind

end EduASM

namespace EduASM

theorem pass1Aux_invariant : ∀ (pairs : List (Nat × String)) (st st' : P1St),
    (∀ p ∈ pairs, isOrgLine p.2 = false) →
    pass1Aux pairs st = .ok st' →
    st.currentAddress = (st.ast.length : Int) →
    st'.currentAddress = (st'.ast.length : Int) := by
  intro pairs
  induction pairs with
  | nil =>
    intro st st' _ h hinv
    simp only [pass1Aux] at h
    cases h
    exact hinv
  | cons p rest ih =>
    intro st st' hno h hinv
    simp only [pass1Aux] at h
    rcases hline : pass1Line p.1 p.2 st with e | stm
    · rw [hline] at h; simp [Bind.bind, Except.bind] at h
    · rw [hline] at h
      simp only [Bind.bind, Except.bind] at h
      exact ih stm st' (fun q hq => hno q (List.mem_cons_of_mem p hq)) h
        (pass1Line_invariant p.1 p.2 st stm (hno p (List.mem_cons_self p rest)) hline hinv)

theorem pass1Aux_find_mono : ∀ (pairs : List (Nat × String)) (st st' : P1St)
    (name : String) (v : Int),
    pass1Aux pairs st = .ok st' →
    st.labels.find name = some v →
    st'.labels.find name = some v := by
  intro pairs
  induction pairs with
  | nil =>
    intro st st' name v h hf
    simp only [pass1Aux] at h
    cases h
    exact hf
  | cons p rest ih =>
    intro st st' name v h hf
    simp only [pass1Aux] at h
    rcases hline : pass1Line p.1 p.2 st with e | stm
    · rw [hline] at h; simp [Bind.bind, Except.bind] at h
    · rw [hline] at h
      simp only [Bind.bind, Except.bind] at h
      exact ih stm st' name v h (pass1Line_find_mono p.1 p.2 st stm name v hline hf)

theorem pass1Line_label_binding (n : Nat) (line : String) (st st' : P1St)
    (before after : String)
    (hsemi : strStartsWith (jsTrim line) ";" = false)
    (hslash : strStartsWith (jsTrim line) "//" = false)
    (hdot : strStartsWith (jsTrim line) "." = false)
    (hcolon : beforeAfterColon (jsTrim line) = some (before, after))
    (h : pass1Line n line st = .ok st') :
    st'.labels.find (jsTrim before) =
      some (if st.inDataSection then (st.dataPtr : Int) else st.currentAddress) := by
  have hne : jsTrim line ≠ "" := by
    intro he
    rw [he] at hcolon
    simp [beforeAfterColon] at hcolon
  simp only [pass1Line] at h
  rw [if_neg (by simp [hne, hsemi, hslash])] at h
  rw [if_neg (by simp [hdot])] at h
  rw [hcolon] at h
  dsimp only at h
  obtain ⟨hl, -, -⟩ := pass1Label_shape _ _ _ _ _ h
  rw [hl]
  exact find_cons_self _ _ _

end EduASM

namespace EduASM

theorem assemble_labels_from_pass1 (source : String) (p : Program)
    (h : assemble source = .ok p) :
    ∃ st1, pass1Aux (enumLines source) pass1Init = .ok st1 ∧
      p.labels = st1.labels := by
  simp only [assemble] at h
  rcases h1 : pass1Aux (enumLines source) pass1Init with e | st1
  · rw [h1] at h; simp [Bind.bind, Except.bind] at h
  · rw [h1] at h
    simp only [Bind.bind, Except.bind] at h
    rcases h2 : pass2Aux st1.ast (enumLines source) ⟨[], 0⟩ with e | st2
    · rw [h2] at h; simp at h
    · rw [h2] at h
      simp only at h
      rcases h3 : checkLabels st1.labels (st2.done ++ st1.ast.drop st2.astIndex) with e | u
      · rw [h3] at h; simp at h
      · rw [h3] at h
        simp only at h
        cases h
        exact ⟨st1, rfl, rfl⟩

end EduASM

namespace EduASM

/-! ### Claim theorems -/

/-- C1: executing MOV R0,#2147483647; ADD R0,#1 wraps R0 to -2147483648,
but the flag unit computes ZF/NF/OF from the unwrapped JavaScript sum
2147483648, so NF and OF (and CF) are all false after the step — the
claimed NF=true, OF=true does not hold on the code. -/
theorem c1_add_overflow_behavior :
    c1Step2.cpu.R 0 = -2147483648 ∧ c1Step2.cpu.F.NF = false ∧
    c1Step2.cpu.F.OF = false ∧ c1Step2.cpu.F.CF = false ∧
    c1Step1.err = none ∧ c1Step2.err = none := by
  decide

/-- C2: after a SHL (or SHR) whose shifted-out bit is 1, the carry flag is
false: the shift cases first assign CF from the shifted-out bit but then
call setFlags with the logic operation kind, which clears CF and OF. -/
theorem c2_shift_carry_cleared :
    (c2ShlStep2.cpu.F.CF = false ∧ c2ShlStep2.cpu.R 0 = 0 ∧
      c2ShlStep2.err = none) ∧
    (c2ShrStep2.cpu.F.CF = false ∧ c2ShrStep2.cpu.R 0 = 0 ∧
      c2ShrStep2.err = none) := by
  decide

/-- C3 (counterexample): the program CMP R0,#0; JZ 5 takes the conditional
jump to target 5, outside the 2-instruction range, without raising any
runtime error: the step leaves IP = 5 and the following step silently
halts the CPU. -/
theorem c3_counterexample :
    c3Step1.cpu.F.ZF = true ∧
    c3Step2.err = none ∧ c3Step2.cpu.IP = 5 ∧ c3JzProgram.ast.length = 2 ∧
    c3Step3.err = none ∧ c3Step3.cpu.halted = true := by
  decide

/-- C4: after MOV R0,#65536; MUL R0,#65536 the exact product 2^32 lies
outside the 32-bit signed range, yet CF and OF are false: the mul branch of
setFlags compares the product against 0x7FFFFFFFF and -0x800000000 (the
35-bit bounds) instead of the 32-bit ones. -/
theorem c4_mul_flag_bounds_behavior :
    c4Step2.cpu.R 0 = 0 ∧ c4Step2.cpu.F.ZF = true ∧
    c4Step2.cpu.F.CF = false ∧ c4Step2.cpu.F.OF = false ∧
    c4Step2.err = none := by
  decide

/-- C8: running the infinite self-loop JMP 0 with maxSteps = 100 returns
normally after exactly 100 executed steps with halted = false and
hitBreakpoint = false. -/
theorem c8_step_budget :
    (run createCPU c8Program zeroMem 100 []).2.2 =
      .ok ⟨100, false, false⟩ := by
  decide

end EduASM

namespace EduASM

/-- C5: a DIV whose resolved divisor is 0 makes step report the error at the
DIV instruction's source line with the message Division by zero; the carry
flag has been set to true, and every register, the instruction pointer and
all of memory are unchanged (the state equals the input state except CF). -/
theorem c5_div_zero_fault (cpu : CPU) (program : Program) (ram : Mem)
    (instr : Instruction)
    (hhalt : cpu.halted = false)
    (hip0 : 0 ≤ cpu.IP)
    (hipn : cpu.IP < (program.ast.length : Int))
    (hget : program.ast.get? cpu.IP.toNat = some instr)
    (hop : instr.op = "DIV")
    (hdiv : resolveOperand (instr.operands.getD 1 defaultOperand) cpu ram
      program.labels = .ok 0) :
    step cpu program ram =
      ⟨{ cpu with F := { cpu.F with CF := true } }, ram,
        some ⟨instr.line, "Division by zero", none⟩⟩ := by
  unfold step
  rw [hhalt]
  rw [if_neg (by simp)]
  rw [if_neg (by omega)]
  rw [hget]
  simp only [hop, hdiv]
  simp [throwOut, hhalt]

/-- C5 witness: the fault on DIV R0,R1 from the initial CPU. -/
theorem c5_div_zero_fault_witness :
    step createCPU c5Program zeroMem =
      ⟨{ createCPU with F := { createCPU.F with CF := true } }, zeroMem,
        some ⟨1, "Division by zero", none⟩⟩ :=
  c5_div_zero_fault createCPU c5Program zeroMem
    ⟨"DIV", [⟨.reg, .num 0, none, none⟩, ⟨.reg, .num 1, none, none⟩], 1, "DIV R0,R1"⟩
    rfl (by decide) (by decide) (by decide) rfl (by decide)

/-- C9: when a PUSH faults with Stack overflow because the decremented stack
pointer would be negative (and likewise for CALL, Stack overflow on CALL),
the CPU handed back with the error already has SP decremented by 4: the
faulting step is not atomic. -/
theorem c9_push_overflow_mutates_sp :
    (∀ (cpu : CPU) (program : Program) (ram : Mem) (instr : Instruction) (v : Int),
      cpu.halted = false →
      0 ≤ cpu.IP → cpu.IP < (program.ast.length : Int) →
      program.ast.get? cpu.IP.toNat = some instr →
      instr.op = "PUSH" →
      resolveOperand (instr.operands.getD 0 defaultOperand) cpu ram
        program.labels = .ok v →
      cpu.SP < 4 →
      step cpu program ram =
        ⟨{ cpu with SP := cpu.SP - 4 }, ram,
          some ⟨instr.line, "Stack overflow", none⟩⟩) ∧
    (∀ (cpu : CPU) (program : Program) (ram : Mem) (instr : Instruction) (t : Int),
      cpu.halted = false →
      0 ≤ cpu.IP → cpu.IP < (program.ast.length : Int) →
      program.ast.get? cpu.IP.toNat = some instr →
      instr.op = "CALL" →
      resolveOperand (instr.operands.getD 0 defaultOperand) cpu ram
        program.labels = .ok t →
      0 ≤ t → t < (program.ast.length : Int) →
      cpu.SP < 4 →
      step cpu program ram =
        ⟨{ cpu with SP := cpu.SP - 4 }, ram,
          some ⟨instr.line, "Stack overflow on CALL", none⟩⟩) := by
  constructor
  · intro cpu program ram instr v hhalt hip0 hipn hget hop hres hsp
    unfold step
    rw [hhalt]
    rw [if_neg (by simp)]
    rw [if_neg (by omega)]
    rw [hget]
    simp only [hop, hres, pushValue]
    rw [if_pos (by simp; omega)]
    simp [throwOut, hhalt]
  · intro cpu program ram instr t hhalt hip0 hipn hget hop hres ht0 htn hsp
    unfold step
    rw [hhalt]
    rw [if_neg (by simp)]
    rw [if_neg (by omega)]
    rw [hget]
    simp only [hop, hres]
    rw [if_neg (by omega)]
    rw [if_pos (by simp; omega)]
    simp [throwOut, hhalt]

/-- C9 witness: PUSH R0 and CALL 0 from SP = 0 both fault and leave SP = -4. -/
theorem c9_push_overflow_mutates_sp_witness :
    step cpuSP0 c9PushProgram zeroMem =
      ⟨{ cpuSP0 with SP := cpuSP0.SP - 4 }, zeroMem,
        some ⟨1, "Stack overflow", none⟩⟩ ∧
    step cpuSP0 c9CallProgram zeroMem =
      ⟨{ cpuSP0 with SP := cpuSP0.SP - 4 }, zeroMem,
        some ⟨1, "Stack overflow on CALL", none⟩⟩ :=
  ⟨c9_push_overflow_mutates_sp.1 cpuSP0 c9PushProgram zeroMem
      ⟨"PUSH", [⟨.reg, .num 0, none, none⟩], 1, "PUSH R0"⟩ 0
      rfl (by decide) (by decide) (by decide) rfl (by decide) (by decide),
   c9_push_overflow_mutates_sp.2 cpuSP0 c9CallProgram zeroMem
      ⟨"CALL", [⟨.imm, .num 0, none, none⟩], 1, "CALL 0"⟩ 0
      rfl (by decide) (by decide) (by decide) rfl (by decide) (by decide)
      (by decide) (by decide)⟩

/-- C10: SHR is a logical, zero-filling right shift: for every operand value
and every shift amount in the range 1 to 31, the step succeeds and the
32-bit value left in the destination (general register, SP or BP) is
non-negative, even for a negative operand. -/
theorem c10_shr_logical_nonneg :
    ∀ (cpu : CPU) (program : Program) (ram : Mem) (instr : Instruction) (r s : Int),
      cpu.halted = false →
      0 ≤ cpu.IP → cpu.IP < (program.ast.length : Int) →
      program.ast.get? cpu.IP.toNat = some instr →
      instr.op = "SHR" →
      (instr.operands.getD 0 defaultOperand).value.asNumber = r →
      (r = -1 ∨ r = -2 ∨ (0 ≤ r ∧ r < 8)) →
      resolveOperand (instr.operands.getD 1 defaultOperand) cpu ram
        program.labels = .ok s →
      1 ≤ s → s ≤ 31 →
      (step cpu program ram).err = none ∧
      0 ≤ getBase (step cpu program ram).cpu r := by
  intro cpu program ram instr r s hhalt hip0 hipn hget hop hr hrv hres hs1 hs31
  unfold step
  rw [hhalt]
  rw [if_neg (by simp)]
  rw [if_neg (by omega)]
  rw [hget]
  simp only [hop, hres, hr]
  rw [if_neg (by omega)]
  constructor
  · simp [advanceOut, setFlags]
  · have hres0 : 0 ≤ jsShrU (getBase cpu r) s := jsShrU_nonneg _ _
    have hreslt : jsShrU (getBase cpu r) s < 2147483648 := jsShrU_lt _ _ hs1 hs31
    simp only [advanceOut, setFlags]
    rw [getBase_of_update]
    rw [getBase_setBase_valid cpu r _ hrv]
    split
    · exact hres0
    · rw [toInt32_eq_self _ (by omega) hreslt]
      exact hres0

/-- C10 witness: SHR R0,#1 on R0 = -8 succeeds and leaves R0 non-negative. -/
theorem c10_shr_logical_nonneg_witness :
    (step cpuR0neg8 c10Program zeroMem).err = none ∧
    0 ≤ getBase (step cpuR0neg8 c10Program zeroMem).cpu 0 :=
  c10_shr_logical_nonneg cpuR0neg8 c10Program zeroMem
    ⟨"SHR", [⟨.reg, .num 0, none, none⟩, ⟨.imm, .num 1, none, none⟩], 1, "SHR R0,#1"⟩
    0 1 rfl (by decide) (by decide) (by decide) rfl (by decide) (by decide)
    (by decide) (by decide) (by decide)

end EduASM

namespace EduASM

theorem takeJump_ok (cpu : CPU) (ram : Mem) (line : Nat)
    (operands : List Operand) (labels : Labels) (t : Int)
    (h : resolveOperand (operands.getD 0 defaultOperand) cpu ram labels = .ok t) :
    takeJump cpu ram line operands labels = ⟨{ cpu with IP := t }, ram, none⟩ := by
  unfold takeJump
  rw [h]

/-- C3 (amended): only the unconditional JMP validates its resolved target
against the instruction range — a taken JMP with an out-of-range target
raises a runtime error and leaves the CPU and memory untouched.  Every
taken conditional jump (JZ, JNZ, JC, JNC, JN, JNN, JG, JGE, JL, JLE) sets
IP to the resolved target without any validation and without error; a CPU
whose IP lies outside the instruction range is then silently halted by the
next step, again without error. -/
theorem c3_jump_target_validation :
    (∀ (cpu : CPU) (program : Program) (ram : Mem) (instr : Instruction) (t : Int),
      cpu.halted = false →
      0 ≤ cpu.IP → cpu.IP < (program.ast.length : Int) →
      program.ast.get? cpu.IP.toNat = some instr →
      instr.op = "JMP" →
      resolveOperand (instr.operands.getD 0 defaultOperand) cpu ram
        program.labels = .ok t →
      (t < 0 ∨ (program.ast.length : Int) ≤ t) →
      step cpu program ram =
        ⟨cpu, ram, some ⟨instr.line, s!"Jump target out of bounds: {t}", none⟩⟩) ∧
    (∀ (cpu : CPU) (program : Program) (ram : Mem) (instr : Instruction) (t : Int),
      cpu.halted = false →
      0 ≤ cpu.IP → cpu.IP < (program.ast.length : Int) →
      program.ast.get? cpu.IP.toNat = some instr →
      ((instr.op = "JZ" ∧ cpu.F.ZF = true) ∨
       (instr.op = "JNZ" ∧ cpu.F.ZF = false) ∨
       (instr.op = "JC" ∧ cpu.F.CF = true) ∨
       (instr.op = "JNC" ∧ cpu.F.CF = false) ∨
       (instr.op = "JN" ∧ cpu.F.NF = true) ∨
       (instr.op = "JNN" ∧ cpu.F.NF = false) ∨
       (instr.op = "JG" ∧ cpu.F.ZF = false ∧ cpu.F.NF = cpu.F.OF) ∨
       (instr.op = "JGE" ∧ cpu.F.NF = cpu.F.OF) ∨
       (instr.op = "JL" ∧ cpu.F.NF ≠ cpu.F.OF) ∨
       (instr.op = "JLE" ∧ (cpu.F.ZF = true ∨ cpu.F.NF ≠ cpu.F.OF))) →
      resolveOperand (instr.operands.getD 0 defaultOperand) cpu ram
        program.labels = .ok t →
      step cpu program ram = ⟨{ cpu with IP := t }, ram, none⟩) ∧
    (∀ (cpu : CPU) (program : Program) (ram : Mem),
      cpu.halted = false →
      (cpu.IP < 0 ∨ (program.ast.length : Int) ≤ cpu.IP) →
      step cpu program ram = ⟨{ cpu with halted := true }, ram, none⟩) := by
  refine ⟨?_, ?_, ?_⟩
  · intro cpu program ram instr t hhalt hip0 hipn hget hop hres hout
    unfold step
    rw [hhalt]
    rw [if_neg (by simp)]
    rw [if_neg (by omega)]
    rw [hget]
    simp only [hop, hres]
    rw [if_pos (by omega)]
    simp [throwOut]
  · intro cpu program ram instr t hhalt hip0 hipn hget hcc hres
    unfold step
    rw [hhalt]
    rw [if_neg (by simp)]
    rw [if_neg (by omega)]
    rw [hget]
    rcases hcc with ⟨hop, hf⟩ | ⟨hop, hf⟩ | ⟨hop, hf⟩ | ⟨hop, hf⟩ | ⟨hop, hf⟩ |
      ⟨hop, hf⟩ | ⟨hop, hf⟩ | ⟨hop, hf⟩ | ⟨hop, hf⟩ | ⟨hop, hf⟩
    · simp only [hop]
      rw [if_pos hf, takeJump_ok _ _ _ _ _ _ hres, hhalt]
    · simp only [hop]
      rw [if_pos (by simp [hf]), takeJump_ok _ _ _ _ _ _ hres, hhalt]
    · simp only [hop]
      rw [if_pos hf, takeJump_ok _ _ _ _ _ _ hres, hhalt]
    · simp only [hop]
      rw [if_pos (by simp [hf]), takeJump_ok _ _ _ _ _ _ hres, hhalt]
    · simp only [hop]
      rw [if_pos hf, takeJump_ok _ _ _ _ _ _ hres, hhalt]
    · simp only [hop]
      rw [if_pos (by simp [hf]), takeJump_ok _ _ _ _ _ _ hres, hhalt]
    · simp only [hop]
      rw [if_pos (by simp [hf.1, hf.2]), takeJump_ok _ _ _ _ _ _ hres, hhalt]
    · simp only [hop]
      rw [if_pos (by simp [hf]), takeJump_ok _ _ _ _ _ _ hres, hhalt]
    · simp only [hop]
      rw [if_pos hf, takeJump_ok _ _ _ _ _ _ hres, hhalt]
    · simp only [hop]
      rw [if_pos (by rcases hf with hf | hf <;> simp [hf]),
        takeJump_ok _ _ _ _ _ _ hres, hhalt]
  · intro cpu program ram hhalt hout
    unfold step
    rw [hhalt]
    rw [if_neg (by simp)]
    rw [if_pos (by omega)]

/-- C3 witness: a JMP to 5 in a one-instruction program faults; a taken JZ
to 5 sets IP = 5 with no error; a CPU with IP = 7 is silently halted. -/
theorem c3_jump_target_validation_witness :
    step createCPU c3JmpProgram zeroMem =
      ⟨createCPU, zeroMem, some ⟨1, "Jump target out of bounds: 5", none⟩⟩ ∧
    step cpuZF c3JzOnly zeroMem = ⟨{ cpuZF with IP := 5 }, zeroMem, none⟩ ∧
    step cpuIP7 c3JzOnly zeroMem =
      ⟨{ cpuIP7 with halted := true }, zeroMem, none⟩ :=
  ⟨c3_jump_target_validation.1 createCPU c3JmpProgram zeroMem
      ⟨"JMP", [⟨.imm, .num 5, none, none⟩], 1, "JMP 5"⟩ 5
      rfl (by decide) (by decide) (by decide) rfl (by decide) (by decide),
   c3_jump_target_validation.2.1 cpuZF c3JzOnly zeroMem
      ⟨"JZ", [⟨.imm, .num 5, none, none⟩], 1, "JZ 5"⟩ 5
      rfl (by decide) (by decide) (by decide) (Or.inl ⟨rfl, rfl⟩) (by decide),
   c3_jump_target_validation.2.2 cpuIP7 c3JzOnly zeroMem rfl (by decide)⟩

end EduASM

namespace EduASM

/-- C6 (counterexample): the source .ORG 5 / foo: / NOP is accepted by
assemble, its only instruction NOP sits at index 0, yet the text label foo
maps to 5 — not to the instruction index of the next instruction. -/
theorem c6_counterexample :
    (assemble ".ORG 5\nfoo:\nNOP").map
        (fun p => (p.labels.find "foo", p.ast.length,
          (p.ast.getD 0 defaultInstruction).op)) =
      .ok (some 5, 1, "NOP") := by
  decide

/-- C6 (amended): in the absence of .ORG directives the pass-1 address
counter always equals the number of instructions emitted so far, so a label
defined on a label line in the text section is bound (in the label table of
the accepted program, whose table is exactly pass 1's) to the instruction
index of the next instruction, and a label defined in the data section is
bound to the byte offset of the next datum; bindings persist untouched to
the end of assembly.  With .ORG the text-label binding is the raw address
counter instead. -/
theorem c6_label_address_spaces :
    (∀ (pairs : List (Nat × String)) (st st' : P1St),
        (∀ p ∈ pairs, isOrgLine p.2 = false) →
        pass1Aux pairs st = .ok st' →
        st.currentAddress = (st.ast.length : Int) →
        st'.currentAddress = (st'.ast.length : Int)) ∧
    (∀ (n : Nat) (line : String) (st st' : P1St) (before after : String),
        strStartsWith (jsTrim line) ";" = false →
        strStartsWith (jsTrim line) "//" = false →
        strStartsWith (jsTrim line) "." = false →
        beforeAfterColon (jsTrim line) = some (before, after) →
        pass1Line n line st = .ok st' →
        st.currentAddress = (st.ast.length : Int) →
        st'.labels.find (jsTrim before) =
          some (if st.inDataSection then (st.dataPtr : Int)
            else (st.ast.length : Int))) ∧
    (∀ (pairs : List (Nat × String)) (st st' : P1St) (name : String) (v : Int),
        pass1Aux pairs st = .ok st' →
        st.labels.find name = some v →
        st'.labels.find name = some v) ∧
    (∀ (source : String) (p : Program),
        assemble source = .ok p →
        ∃ st1, pass1Aux (enumLines source) pass1Init = .ok st1 ∧
          p.labels = st1.labels) := by
  refine ⟨pass1Aux_invariant, ?_, pass1Aux_find_mono, assemble_labels_from_pass1⟩
  intro n line st st' before after h1 h2 h3 h4 h5 hinv
  have hb := pass1Line_label_binding n line st st' before after h1 h2 h3 h4 h5
  rw [hinv] at hb
  exact hb

/-- C6 witness: concrete instantiations — processing NOP keeps the counter
equal to the instruction count; the line foo: binds foo to instruction
index 0; the binding survives a following instruction line; and assembling
NOP yields a program whose label table is pass 1's. -/
theorem c6_label_address_spaces_witness :
    c6StNop.currentAddress = (c6StNop.ast.length : Int) ∧
    c6StFoo.labels.find "foo" = some 0 ∧
    c6StFooNop.labels.find "foo" = some 0 ∧
    (∃ st1, pass1Aux (enumLines "NOP") pass1Init = .ok st1 ∧
      (progOf "NOP").labels = st1.labels) :=
  ⟨c6_label_address_spaces.1 [(1, "NOP")] pass1Init c6StNop (by decide) rfl rfl,
   c6_label_address_spaces.2.1 1 "foo:" pass1Init c6StFoo "foo" ""
     (by decide) (by decide) (by decide) (by decide) rfl rfl,
   c6_label_address_spaces.2.2.1 [(2, "NOP")] c6StFoo c6StFooNop "foo" 0
     rfl (by decide),
   c6_label_address_spaces.2.2.2 "NOP" (progOf "NOP") rfl⟩

/-- C7: a PUSH decrements SP by 4 and then writes the value at the new SP; a
POP reads the value at SP and then increments SP by 4; and pushing any list
of 32-bit register values and then popping the same number of times (no
overflow or underflow occurring) restores SP to its original value and
returns exactly the pushed values in reverse (LIFO) order. -/
theorem c7_stack_lifo_balance :
    (∀ (cpu : CPU) (ram : Mem) (v : Int), 4 ≤ cpu.SP →
      pushValue cpu ram v =
        ({ cpu with SP := cpu.SP - 4 }, ram.setInt32 (cpu.SP - 4) v, none)) ∧
    (∀ (cpu : CPU) (ram : Mem), cpu.SP < RAM_SIZE - 4 →
      popValue cpu ram =
        ({ cpu with SP := cpu.SP + 4 }, ram, none, ram.getInt32 cpu.SP)) ∧
    (∀ (vs : List Int) (cpu : CPU) (ram : Mem),
      4 * vs.length ≤ cpu.SP →
      cpu.SP ≤ RAM_SIZE - 4 →
      (∀ v ∈ vs, -2147483648 ≤ v ∧ v < 2147483648) →
      ∃ ram' : Mem,
        pushAll cpu ram vs =
          ({ cpu with SP := cpu.SP - 4 * vs.length }, ram', none) ∧
        (∀ x : Int, cpu.SP ≤ x → ram' x = ram x) ∧
        popAll { cpu with SP := cpu.SP - 4 * vs.length } ram' vs.length =
          (cpu, ram', none, vs.reverse)) :=
  ⟨pushValue_ok, popValue_ok, stackRoundTrip⟩

/-- C7 witness: a push from the initial CPU, a pop from SP = 100, and a
2-element push/pop round trip. -/
theorem c7_stack_lifo_balance_witness :
    pushValue createCPU zeroMem 7 =
      ({ createCPU with SP := createCPU.SP - 4 },
        zeroMem.setInt32 (createCPU.SP - 4) 7, none) ∧
    popValue cpuSP100 zeroMem =
      ({ cpuSP100 with SP := cpuSP100.SP + 4 }, zeroMem,
        none, zeroMem.getInt32 cpuSP100.SP) ∧
    (∃ ram' : Mem,
      pushAll createCPU zeroMem [1, 2] =
        ({ createCPU with SP := createCPU.SP - 4 * 2 }, ram', none) ∧
      (∀ x : Int, createCPU.SP ≤ x → ram' x = zeroMem x) ∧
      popAll { createCPU with SP := createCPU.SP - 4 * 2 } ram' 2 =
        (createCPU, ram', none, [2, 1])) :=
  ⟨c7_stack_lifo_balance.1 createCPU zeroMem 7 (by decide),
   c7_stack_lifo_balance.2.1 cpuSP100 zeroMem (by decide),
   c7_stack_lifo_balance.2.2 [1, 2] createCPU zeroMem (by decide) (by decide)
     (by decide)⟩

end EduASM
